import Mathlib

/-!
Verification development for the whatskennethdoing activity tracker.

The server routes (app/api/activity/current, events, stop) and the client
history grid (components/HistoryCard.tsx) are shallowly embedded below.
Timestamps are modelled as integers (milliseconds since epoch); the JS
runtime date parser (new Date) and locale renderers are abstract function
parameters, while every piece of logic written in the repository itself is
translated directly.
-/

namespace WKD

/-- Character class used by the regular expression [\s-] in normalizeStatus. -/
def wsDash (c : Char) : Bool :=
  c.isWhitespace || c = '-'

/-- Collapse every maximal run of whitespace/hyphen characters into a single
underscore, the effect of replace(/[\s-]+/g, "_") on a character list. -/
def squashWsDash : List Char → List Char
  | [] => []
  | [c] => if wsDash c then ['_'] else [c]
  | c :: d :: rest =>
    if wsDash c && wsDash d then squashWsDash (d :: rest)
    else (if wsDash c then '_' else c) :: squashWsDash (d :: rest)

/-- Boolean test that one character list occurs at the head of another. -/
def isPrefixList : List Char → List Char → Bool
  | [], _ => true
  | _ :: _, [] => false
  | a :: as, b :: bs => a = b && isPrefixList as bs

/-- Boolean substring occurrence test on character lists; the empty needle
always matches, as with the JS String.prototype.includes method. -/
def listContainsSub : List Char → List Char → Bool
  | _, [] => true
  | [], _ :: _ => false
  | c :: rest, n :: ns =>
    isPrefixList (n :: ns) (c :: rest) || listContainsSub rest (n :: ns)

/-- Case-insensitive-relevant lowering of a whole string. -/
def toLowerStr (s : String) : String :=
  String.mk (s.data.map Char.toLower)

/-- Uppercasing of a whole string, the JS toUpperCase. -/
def toUpperStr (s : String) : String :=
  String.mk (s.data.map Char.toUpper)

/-- The JS String.prototype.trim: drop whitespace from both ends. -/
def jsTrim (s : String) : String :=
  String.mk
    (List.reverse
      (List.dropWhile Char.isWhitespace
        (List.reverse (List.dropWhile Char.isWhitespace s.data))))

/-- Case-insensitive substring test, used by the grid filters. -/
def containsSub (hay needle : String) : Bool :=
  listContainsSub hay.data needle.data

/- ## Server data model

Mirrors the Prisma tables ActiveActivity and ActivityEvent (fields as in
prisma/migrations and the route handlers). -/

inductive TaskStatus where
  | NOT_STARTED
  | IN_PROGRESS
  | ON_HOLD
  | COMPLETED
deriving DecidableEq, Repr

/-- The raw database string of a status value. -/
def TaskStatus.toStr : TaskStatus → String
  | .NOT_STARTED => "NOT_STARTED"
  | .IN_PROGRESS => "IN_PROGRESS"
  | .ON_HOLD => "ON_HOLD"
  | .COMPLETED => "COMPLETED"

inductive Visibility where
  | PUBLIC
  | REDACTED
deriving DecidableEq, Repr

inductive Role where
  | OWNER
  | VIEWER
deriving DecidableEq, Repr

structure Event where
  id : String
  userUpn : String
  title : String
  type : String
  status : TaskStatus
  project : Option String
  notes : Option String
  referenceId : Option String
  startedAt : Int
  endedAt : Option Int
  visibility : Visibility
  redactedLabel : Option String
deriving DecidableEq, Repr

structure ActiveActivity where
  id : String
  userUpn : String
  title : String
  type : String
  status : TaskStatus
  project : Option String
  notes : Option String
  referenceId : Option String
  startedAt : Int
  lastHeartbeatAt : Int
  visibility : Visibility
  redactedLabel : Option String
deriving DecidableEq, Repr

structure Db where
  events : List Event
  actives : List ActiveActivity
deriving DecidableEq, Repr

/- ## Shared route helpers (current/route.ts and events/route.ts) -/

/-- Membership of the canonical TASK_STATUSES set, as an optional parse. -/
def statusOfString? (s : String) : Option TaskStatus :=
  if s = "NOT_STARTED" then some .NOT_STARTED
  else if s = "IN_PROGRESS" then some .IN_PROGRESS
  else if s = "ON_HOLD" then some .ON_HOLD
  else if s = "COMPLETED" then some .COMPLETED
  else none

/-- value.trim().toUpperCase().replace(/[\s-]+/g, "_") from both routes. -/
def normalizeStatusKey (v : String) : String :=
  String.mk (squashWsDash (toUpperStr (jsTrim v)).data)

/-- normalizeStatus from current/route.ts: unrecognized input (including an
absent field) falls back to IN_PROGRESS. -/
def normalizeStatus (value : Option String) : TaskStatus :=
  (statusOfString? (normalizeStatusKey (value.getD ""))).getD .IN_PROGRESS

/-- normalizeStatus from events/route.ts: non-string or unrecognized input is
reported as none so that the caller can keep the existing stored status. -/
def normalizeStatusEv (value : Option String) : Option TaskStatus :=
  match value with
  | none => none
  | some v => statusOfString? (normalizeStatusKey v)

/-- parseOptionalDate from both routes; the JS runtime date parser itself is
the abstract parameter parseDate (none stands for an invalid date / NaN). -/
def parseOptionalDate (parseDate : String → Option Int) (value : Option String) :
    Option Int :=
  match value with
  | none => none
  | some v => if jsTrim v = "" then none else parseDate v

/-- redactTitle from both routes. -/
def redactTitle (label : Option String) : String :=
  label.getD "Busy - perfectly legal and secret activities"

/-- Error outcomes of the route handlers. -/
inductive ApiError where
  | forbidden
  | badRequest (msg : String)
  | notFound (msg : String)
  | serverError
deriving DecidableEq, Repr

/-- The fixed id of the ActiveActivity row of a subject. -/
def activeRowId (subjectUpn : String) : String :=
  subjectUpn ++ ":active"

/-- The guard endTime && endTime.getTime() < startedAt.getTime(). -/
def endBeforeStart : Option Int → Int → Bool
  | some e, s => decide (e < s)
  | none, _ => false

/- ## POST /api/activity/current (StartOrUpdateCurrent) -/

structure CurrentBody where
  title : Option String := none
  category : Option String := none
  type : Option String := none
  status : Option String := none
  notes : Option String := none
  startTime : Option String := none
  endTime : Option String := none
  referenceId : Option String := none
  visibility : Option Visibility := none
  redactedLabel : Option String := none
deriving DecidableEq, Repr

structure CurrentResult where
  db : Db
  active : Option ActiveActivity
deriving DecidableEq, Repr

/-- The updateMany closing every open event of the subject at the new
startedAt, from the transaction in current/route.ts. -/
def closeOpenEvents (subjectUpn : String) (t : Int) (events : List Event) :
    List Event :=
  events.map fun e =>
    if e.userUpn = subjectUpn ∧ e.endedAt = none then { e with endedAt := some t }
    else e

/-- POST handler of current/route.ts. The JS date parser is the abstract
parameter parseDate, now is the Date constructed at the top of the handler,
and newId is the value of crypto.randomUUID(); a colliding newId makes the
prisma create throw, which the catch block maps to a 500 with no net write. -/
def startOrUpdateCurrent (parseDate : String → Option Int) (role : Role)
    (subjectUpn : String) (body : CurrentBody) (now : Int) (newId : String)
    (db : Db) : Except ApiError CurrentResult :=
  if role ≠ Role.OWNER then .error .forbidden else
  let title := jsTrim (body.title.getD "")
  let category := jsTrim (body.category.getD (body.type.getD ""))
  let status := normalizeStatus body.status
  let notes := body.notes.map jsTrim
  let startTime := parseOptionalDate parseDate body.startTime
  let endTime := parseOptionalDate parseDate body.endTime
  let referenceId := body.referenceId.map jsTrim
  let redactedLabel := body.redactedLabel.map jsTrim
  let startedAt := startTime.getD now
  if title = "" ∨ category = "" then
    .error (.badRequest "Both title and category are required")
  else if endBeforeStart endTime startedAt then
    .error (.badRequest "End time must be after start time")
  else if db.events.any (fun e => decide (e.id = newId)) then
    .error .serverError
  else
    let newEvent : Event :=
      { id := newId, userUpn := subjectUpn, title := title, type := category,
        status := status, project := none, notes := notes,
        referenceId := referenceId, startedAt := startedAt, endedAt := endTime,
        visibility := body.visibility.getD .PUBLIC,
        redactedLabel := redactedLabel }
    let events2 := closeOpenEvents subjectUpn startedAt db.events ++ [newEvent]
    match endTime with
    | some _ =>
      .ok { db := { events := events2,
                    actives := db.actives.filter
                      (fun a => decide (a.userUpn ≠ subjectUpn)) },
            active := none }
    | none =>
      let upd := fun (a : ActiveActivity) =>
        { a with title := title, type := category, status := status,
                 project := none, notes := notes, referenceId := referenceId,
                 startedAt := startedAt, lastHeartbeatAt := now,
                 visibility := body.visibility.getD .PUBLIC,
                 redactedLabel := redactedLabel }
      let created : ActiveActivity :=
        { id := activeRowId subjectUpn, userUpn := subjectUpn, title := title,
          type := category, status := status, project := none, notes := notes,
          referenceId := referenceId, startedAt := startedAt,
          lastHeartbeatAt := now, visibility := body.visibility.getD .PUBLIC,
          redactedLabel := redactedLabel }
      let actives' :=
        if db.actives.any (fun a => decide (a.id = activeRowId subjectUpn)) then
          db.actives.map
            (fun a => if a.id = activeRowId subjectUpn then upd a else a)
        else db.actives ++ [created]
      .ok { db := { events := events2, actives := actives' },
            active := actives'.find? (fun a => decide (a.id = activeRowId subjectUpn)) }

/- ## GET /api/activity/current -/

/-- The redacted payload substitution for an active record. -/
def redactActiveRow (a : ActiveActivity) : ActiveActivity :=
  { a with title := redactTitle a.redactedLabel, project := none, notes := none,
           referenceId := none }

/-- GET handler of current/route.ts (the body of the current field). -/
def getCurrent (role : Role) (subjectUpn : String) (db : Db) :
    Option ActiveActivity :=
  match db.actives.find? (fun a => decide (a.userUpn = subjectUpn)) with
  | none => none
  | some current =>
    if role ≠ Role.OWNER ∧ current.visibility = .REDACTED then
      some (redactActiveRow current)
    else some current

/- ## GET /api/activity/events (ListEvents) -/

/-- The redacted payload substitution for an event row. -/
def redactEventRow (e : Event) : Event :=
  { e with title := redactTitle e.redactedLabel, project := none, notes := none,
           referenceId := none }

/-- GET handler of events/route.ts (the events field of the response). -/
def listEvents (role : Role) (subjectUpn : String) (db : Db) : List Event :=
  let events :=
    ((db.events.filter (fun e => decide (e.userUpn = subjectUpn))).mergeSort
      (fun a b => decide (b.startedAt ≤ a.startedAt))).take 300
  if role ≠ Role.OWNER then
    events.map (fun e => if e.visibility = .REDACTED then redactEventRow e else e)
  else events

/- ## PATCH /api/activity/events (UpdateEvent) -/

structure PatchBody where
  id : Option String := none
  title : Option String := none
  category : Option String := none
  type : Option String := none
  status : Option String := none
  project : Option String := none
  notes : Option String := none
  startTime : Option String := none
  endTime : Option String := none
deriving DecidableEq, Repr

/-- body.project?.trim() || null collapses an empty trim to null. -/
def emptyToNone (s : String) : Option String :=
  if s = "" then none else some s

def patchNextTitle (body : PatchBody) (existing : Event) : String :=
  if body.title.isSome then jsTrim (body.title.getD "") else existing.title

def patchNextCategory (body : PatchBody) (existing : Event) : String :=
  if body.category.isSome || body.type.isSome then
    jsTrim (body.category.getD (body.type.getD ""))
  else existing.type

def patchNextStatus (body : PatchBody) (existing : Event) : TaskStatus :=
  if body.status.isSome then (normalizeStatusEv body.status).getD existing.status
  else existing.status

def patchNextProject (body : PatchBody) (existing : Event) : Option String :=
  if body.project.isSome then emptyToNone (jsTrim (body.project.getD ""))
  else existing.project

def patchNextNotes (body : PatchBody) (existing : Event) : Option String :=
  if body.notes.isSome then emptyToNone (jsTrim (body.notes.getD ""))
  else existing.notes

def patchParsedStart (parseDate : String → Option Int) (body : PatchBody) :
    Option Int :=
  if body.startTime.isSome then parseOptionalDate parseDate body.startTime
  else none

/-- The three-valued parsedEndTime: none is undefined (field absent), some
none is null (present but blank or unparseable), some (some t) a date. -/
def patchParsedEnd (parseDate : String → Option Int) (body : PatchBody) :
    Option (Option Int) :=
  if body.endTime.isSome then some (parseOptionalDate parseDate body.endTime)
  else none

def patchNextStart (parseDate : String → Option Int) (body : PatchBody)
    (existing : Event) : Int :=
  (patchParsedStart parseDate body).getD existing.startedAt

def patchNextEnd (parseDate : String → Option Int) (body : PatchBody)
    (existing : Event) : Option Int :=
  match patchParsedEnd parseDate body with
  | none => existing.endedAt
  | some v => v

/-- The event row written by the PATCH update statement. -/
def patchedEvent (parseDate : String → Option Int) (body : PatchBody)
    (existing : Event) : Event :=
  { existing with
    title := patchNextTitle body existing,
    type := patchNextCategory body existing,
    status := patchNextStatus body existing,
    project := patchNextProject body existing,
    notes := patchNextNotes body existing,
    startedAt := patchNextStart parseDate body existing,
    endedAt := patchNextEnd parseDate body existing }

/-- The activeActivity upsert of the PATCH transaction, mirroring an open
event row. -/
def upsertActiveMirror (subjectUpn : String) (ev : Event) (now : Int)
    (actives : List ActiveActivity) : List ActiveActivity :=
  let updFields := fun (a : ActiveActivity) =>
    { a with userUpn := subjectUpn, title := ev.title, type := ev.type,
             status := ev.status, project := ev.project, notes := ev.notes,
             referenceId := ev.referenceId, startedAt := ev.startedAt,
             lastHeartbeatAt := now, visibility := ev.visibility,
             redactedLabel := ev.redactedLabel }
  if actives.any (fun a => decide (a.id = activeRowId subjectUpn)) then
    actives.map (fun a => if a.id = activeRowId subjectUpn then updFields a else a)
  else
    actives ++
      [{ id := activeRowId subjectUpn, userUpn := subjectUpn, title := ev.title,
         type := ev.type, status := ev.status, project := ev.project,
         notes := ev.notes, referenceId := ev.referenceId,
         startedAt := ev.startedAt, lastHeartbeatAt := now,
         visibility := ev.visibility, redactedLabel := ev.redactedLabel }]

/-- The findFirst locating the patched event by id and subject. -/
def findPatchTarget (subjectUpn id : String) (db : Db) : Option Event :=
  db.events.find? (fun e => decide (e.id = id ∧ e.userUpn = subjectUpn))

/-- PATCH handler of events/route.ts. -/
def updateEvent (parseDate : String → Option Int) (role : Role)
    (subjectUpn : String) (body : PatchBody) (now : Int) (db : Db) :
    Except ApiError (Db × Event) :=
  if role ≠ Role.OWNER then .error .forbidden else
  let id := jsTrim (body.id.getD "")
  if id = "" then .error (.badRequest "Missing event id") else
  match findPatchTarget subjectUpn id db with
  | none => .error (.notFound "Event not found")
  | some existing =>
    let nextStart := patchNextStart parseDate body existing
    let nextEnd := patchNextEnd parseDate body existing
    if patchNextTitle body existing = "" ∨ patchNextCategory body existing = "" then
      .error (.badRequest "Task and category are required")
    else if endBeforeStart nextEnd nextStart then
      .error (.badRequest "End time must be after start time")
    else if existing.endedAt ≠ none ∧ patchParsedEnd parseDate body = some none then
      .error (.badRequest "Re-opening historical events is not supported")
    else
      let ev := patchedEvent parseDate body existing
      let events' := db.events.map (fun e => if e.id = existing.id then ev else e)
      let actives' :=
        if ev.endedAt = none then upsertActiveMirror subjectUpn ev now db.actives
        else if existing.endedAt = none then
          db.actives.filter (fun a => decide (a.userUpn ≠ subjectUpn))
        else db.actives
      .ok ({ events := events', actives := actives' }, ev)

/- ## POST /api/activity/stop (StopCurrent) -/

/-- findFirst of the open event ordered by startedAt descending. -/
def latestOpen (subjectUpn : String) (events : List Event) : Option Event :=
  (events.filter (fun e => decide (e.userUpn = subjectUpn ∧ e.endedAt = none))).foldl
    (fun acc e =>
      match acc with
      | none => some e
      | some b => if b.startedAt < e.startedAt then some e else some b)
    none

/-- POST handler of stop/route.ts. -/
def stopCurrent (role : Role) (subjectUpn : String) (now : Int) (db : Db) :
    Except ApiError Db :=
  if role ≠ Role.OWNER then .error .forbidden else
  let events' :=
    match latestOpen subjectUpn db.events with
    | some o =>
      db.events.map (fun e => if e.id = o.id then { e with endedAt := some now } else e)
    | none => db.events
  .ok { events := events',
        actives := db.actives.filter (fun a => decide (a.userUpn ≠ subjectUpn)) }

/- ## Call sequences over one subject -/

inductive Op where
  | start (role : Role) (body : CurrentBody) (now : Int) (newId : String)
  | stop (role : Role) (now : Int)
  | patch (role : Role) (body : PatchBody) (now : Int)

/-- One API call; a failed call leaves the database unchanged. -/
def step (parseDate : String → Option Int) (subjectUpn : String) (db : Db) :
    Op → Db
  | .start role body now newId =>
    match startOrUpdateCurrent parseDate role subjectUpn body now newId db with
    | .ok r => r.db
    | .error _ => db
  | .stop role now =>
    match stopCurrent role subjectUpn now db with
    | .ok db' => db'
    | .error _ => db
  | .patch role body now =>
    match updateEvent parseDate role subjectUpn body now db with
    | .ok (db', _) => db'
    | .error _ => db

/-- A whole sequence of API calls on one subject. -/
def run (parseDate : String → Option Int) (subjectUpn : String) (db : Db)
    (ops : List Op) : Db :=
  ops.foldl (step parseDate subjectUpn) db

/- ## State invariants -/

/-- The open (endedAt = null) events of a subject. -/
def openEvents (s : String) (db : Db) : List Event :=
  db.events.filter (fun e => decide (e.userUpn = s ∧ e.endedAt = none))

/-- The active records of a subject. -/
def subjectActives (s : String) (db : Db) : List ActiveActivity :=
  db.actives.filter (fun a => decide (a.userUpn = s))

/-- The mirror relation of the spec: the active record carries the same
title, category, status, project, notes and referenceId as the event. -/
def MirrorFields (a : ActiveActivity) (e : Event) : Prop :=
  a.title = e.title ∧ a.type = e.type ∧ a.status = e.status ∧
  a.project = e.project ∧ a.notes = e.notes ∧ a.referenceId = e.referenceId

/-- Well-formedness of a database state: event ids are unique (the primary
key), at most one event of the subject is open, every active row carries the
canonical userUpn:active id, and every active row of the subject mirrors an
open event of the subject. -/
structure Consistent (s : String) (db : Db) : Prop where
  ids_nodup : (db.events.map Event.id).Nodup
  open_le_one : (openEvents s db).length ≤ 1
  shape : ∀ a ∈ db.actives, a.id = activeRowId a.userUpn
  mirrors : ∀ a ∈ subjectActives s db, ∃ e ∈ openEvents s db, MirrorFields a e

/- ## Analytics aggregator

Modelled from the spec: the deployed analytics GET handler is not under src;
the analytics route file there holds an older fixed-category iteration
returning a fixed types list, while its caller AnalyticsCard consumes
free-form todayTotals/weekTotals/categories. The definitions below follow
spec section 4.4 word for word. -/

/-- Modelled from the spec: category = trimmed type, defaulting to the
fallback label General when empty. -/
def analyticsCategory (t : String) : String :=
  if jsTrim t = "" then "General" else jsTrim t

/-- Math.round(d / 60000) for an integer millisecond difference d. -/
def jsRound60000 (d : Int) : Int :=
  (d + 30000).fdiv 60000

/-- Modelled from the spec: elapsed minutes of one event, open events read
as running until now, floored at zero. -/
def eventMinutes (now : Int) (e : Event) : Int :=
  max 0 (jsRound60000 ((e.endedAt.getD now) - e.startedAt))

/-- Add v under key k in an insertion-ordered association list. -/
def bump (m : List (String × Int)) (k : String) (v : Int) :
    List (String × Int) :=
  match m with
  | [] => [(k, v)]
  | (k', v') :: rest =>
    if k' = k then (k', v' + v) :: rest else (k', v') :: bump rest k v

structure Analytics where
  todayTotals : List (String × Int)
  weekTotals : List (String × Int)
  categories : List String
deriving DecidableEq, Repr

/-- Minutes recorded under key k, zero when the key is absent. -/
def lookupD (m : List (String × Int)) (k : String) : Int :=
  match m.find? (fun p => decide (p.1 = k)) with
  | some p => p.2
  | none => 0

/-- Modelled from the spec: category order, descending week minutes with an
ascending case-insensitive name tie-break. -/
def catLe (week : List (String × Int)) (a b : String) : Prop :=
  lookupD week b < lookupD week a ∨
  (lookupD week a = lookupD week b ∧ toLowerStr a ≤ toLowerStr b)

instance (week : List (String × Int)) : DecidableRel (catLe week) := fun _ _ =>
  inferInstanceAs (Decidable (_ ∨ _))

/-- Modelled from the spec: the bounded window of events whose startedAt is
at or after the week boundary, most recent 500 first. -/
def analyticsWindow (weekStart : Int) (events : List Event) : List Event :=
  ((events.filter (fun e => decide (weekStart ≤ e.startedAt))).mergeSort
    (fun a b => decide (b.startedAt ≤ a.startedAt))).take 500

/-- Modelled from the spec: the per-category week-minute totals. -/
def weekMap (now weekStart : Int) (events : List Event) :
    List (String × Int) :=
  (analyticsWindow weekStart events).foldl
    (fun m e => bump m (analyticsCategory e.type) (eventMinutes now e)) []

/-- Modelled from the spec: the per-category today-minute totals, over the
week-window events whose startedAt falls at or after the today boundary. -/
def todayMap (now todayStart weekStart : Int) (events : List Event) :
    List (String × Int) :=
  ((analyticsWindow weekStart events).filter
    (fun e => decide (todayStart ≤ e.startedAt))).foldl
    (fun m e => bump m (analyticsCategory e.type) (eventMinutes now e)) []

/-- Modelled from the spec: the analytics aggregation producing the today
map, the week map, and the union of their category keys ordered by
descending week minutes with the case-insensitive name tie-break. -/
def getAnalytics (now todayStart weekStart : Int) (events : List Event) :
    Analytics :=
  { todayTotals := todayMap now todayStart weekStart events,
    weekTotals := weekMap now weekStart events,
    categories :=
      (((weekMap now weekStart events).map Prod.fst ++
        (todayMap now todayStart weekStart events).map Prod.fst).dedup).insertionSort
        (catLe (weekMap now weekStart events)) }

/- ## Client grid model (components/HistoryCard.tsx)

The JS runtime pieces the component calls into (date parsing, locale
rendering, collation, the timezone offset) are bundled into an abstract
environment; every function below that takes the environment translates the
corresponding component helper. -/

inductive ColumnKey where
  | title
  | startedAt
  | endedAt
  | duration
  | status
  | project
  | notes
  | type
deriving DecidableEq, Repr

/-- The keys of COLUMN_DEFS in declaration order. -/
def COLUMN_KEYS : List ColumnKey :=
  [.title, .startedAt, .endedAt, .duration, .status, .project, .type, .notes]

inductive SortDirection where
  | asc
  | desc
deriving DecidableEq, Repr

structure CEvent where
  id : String
  userUpn : String
  title : String
  type : String
  status : TaskStatus
  project : Option String
  notes : Option String
  referenceId : Option String
  startedAt : String
  endedAt : Option String
deriving DecidableEq, Repr

structure JsEnv where
  dateMs : String → Int
  parseDate : String → Option Int
  fmtInstant : Int → String
  collate : String → String → Int
  isoSlice16 : Int → String
  tzOffsetMin : Int

/-- formatStatusLabel via STATUS_OPTIONS. -/
def formatStatusLabel : TaskStatus → String
  | .NOT_STARTED => "Not started"
  | .IN_PROGRESS => "In progress"
  | .ON_HOLD => "On hold"
  | .COMPLETED => "Completed"

/-- formatDateTime: null renders as active, an invalid date as a dash,
otherwise the locale rendering of the instant. -/
def formatDateTime (env : JsEnv) (v : Option String) : String :=
  match v with
  | none => "active"
  | some s =>
    match env.parseDate s with
    | none => "-"
    | some t => env.fmtInstant t

/-- String(n).padStart(2, "0") for the minute/second components. -/
def pad2 (n : Int) : String :=
  (if n < 10 then "0" else "") ++ toString n

/-- durationLabel over start/end instants in milliseconds. -/
def durationLabel (startMs endMs : Int) : String :=
  let totalSeconds := max 0 ((endMs - startMs).fdiv 1000)
  let h := totalSeconds.fdiv 3600
  let m := (totalSeconds.emod 3600).fdiv 60
  let s := totalSeconds.emod 60
  if 0 < h then toString h ++ "h " ++ pad2 m ++ "m"
  else if 0 < m then toString m ++ "m " ++ pad2 s ++ "s"
  else toString s ++ "s"

/-- toDatetimeLocalValue: the datetime-local input representation. -/
def toDatetimeLocalValue (env : JsEnv) (v : Option String) : String :=
  match v with
  | none => ""
  | some s =>
    match env.parseDate s with
    | none => ""
    | some t => env.isoSlice16 (t - env.tzOffsetMin * 60000)

/-- eventValueForColumn: the rendered display string of one cell. -/
def eventValueForColumn (env : JsEnv) (e : CEvent) (key : ColumnKey)
    (nowTick : Int) : String :=
  let start := env.dateMs e.startedAt
  let endMs := match e.endedAt with
    | some s => env.dateMs s
    | none => nowTick
  match key with
  | .title => e.title
  | .startedAt => formatDateTime env (some e.startedAt)
  | .endedAt => formatDateTime env e.endedAt
  | .duration => durationLabel start endMs
  | .status => formatStatusLabel e.status
  | .project => e.project.getD ""
  | .notes => e.notes.getD ""
  | .type => e.type

/-- The per-row predicate of the filter pass of filteredSortedEvents. -/
def rowPassesFilters (env : JsEnv) (filters : ColumnKey → String)
    (nowTick : Int) (e : CEvent) : Bool :=
  COLUMN_KEYS.all fun key =>
    let f := toLowerStr (jsTrim (filters key))
    if f = "" then true
    else if key = ColumnKey.status then
      containsSub (toLowerStr (formatStatusLabel e.status)) f ||
      containsSub (toLowerStr e.status.toStr) f
    else containsSub (toLowerStr (eventValueForColumn env e key nowTick)) f

/-- The filter pass: a derived computation that never mutates its input. -/
def filterRows (env : JsEnv) (filters : ColumnKey → String) (nowTick : Int)
    (evs : List CEvent) : List CEvent :=
  evs.filter (rowPassesFilters env filters nowTick)

structure SortState where
  sortKey : ColumnKey
  sortDirection : SortDirection
deriving DecidableEq, Repr

/-- toggleSort: clicking the active column flips direction, clicking a new
column selects it ascending. -/
def toggleSort (st : SortState) (nextKey : ColumnKey) : SortState :=
  if st.sortKey = nextKey then
    { st with sortDirection := if st.sortDirection = .asc then .desc else .asc }
  else { sortKey := nextKey, sortDirection := .asc }

/-- The sort pass over rendered display strings, a stable sort driven by the
comparator value as in Array.prototype.sort. -/
def sortRows (env : JsEnv) (st : SortState) (nowTick : Int)
    (evs : List CEvent) : List CEvent :=
  evs.mergeSort fun a b =>
    let base := env.collate (eventValueForColumn env a st.sortKey nowTick)
      (eventValueForColumn env b st.sortKey nowTick)
    decide ((if st.sortDirection = .asc then base else -base) ≤ 0)

/-- filteredSortedEvents: the derived displayed row list. -/
def filteredSortedEvents (env : JsEnv) (filters : ColumnKey → String)
    (st : SortState) (nowTick : Int) (evs : List CEvent) : List CEvent :=
  sortRows env st nowTick (filterRows env filters nowTick evs)

/- ## Batch edit (applyBatchEdit of HistoryCard.tsx) -/

structure EventDraft where
  title : String
  startTime : String
  endTime : String
  status : TaskStatus
  project : String
  notes : String
  category : String
deriving DecidableEq, Repr

/-- toDraft: the edit buffer seeded from a canonical event. -/
def toDraft (env : JsEnv) (e : CEvent) : EventDraft :=
  { title := e.title,
    startTime := toDatetimeLocalValue env (some e.startedAt),
    endTime := toDatetimeLocalValue env e.endedAt,
    status := e.status,
    project := e.project.getD "",
    notes := e.notes.getD "",
    category := e.type }

inductive BatchField where
  | status
  | category
  | project
deriving DecidableEq, Repr

/-- The PATCH payload assembled per selected row. -/
structure BatchPayload where
  id : String
  status : Option TaskStatus := none
  category : Option String := none
  project : Option String := none
deriving DecidableEq, Repr

structure GridState where
  events : List CEvent
  drafts : List (String × EventDraft)
  selectedRowIds : List String
  error : Option String
  editingId : Option String
  batchSaving : Bool
  batchEditField : BatchField
  batchEditText : String
  batchEditStatus : TaskStatus
deriving DecidableEq, Repr

/-- The object-spread update previous with id bound to d. -/
def setDraft (drafts : List (String × EventDraft)) (id : String)
    (d : EventDraft) : List (String × EventDraft) :=
  if drafts.any (fun p => decide (p.1 = id)) then
    drafts.map (fun p => if p.1 = id then (id, d) else p)
  else drafts ++ [(id, d)]

/-- The payload of the PATCH issued for one selected row. -/
def batchPayload (st : GridState) (e : CEvent) : BatchPayload :=
  match st.batchEditField with
  | .status => { id := e.id, status := some st.batchEditStatus }
  | .category => { id := e.id, category := some (jsTrim st.batchEditText) }
  | .project => { id := e.id, project := some (jsTrim st.batchEditText) }

/-- The selected canonical rows a batch edit will patch. -/
def batchSelected (st : GridState) : List CEvent :=
  st.events.filter (fun e => st.selectedRowIds.contains e.id)

/-- One (row id, outcome) pair per concurrent PATCH call. -/
def batchResults (server : BatchPayload → Except String CEvent)
    (st : GridState) : List (String × Except String CEvent) :=
  (batchSelected st).map fun e => (e.id, server (batchPayload st e))

/-- The rows whose update calls succeeded, as returned by the server. -/
def batchUpdated (server : BatchPayload → Except String CEvent)
    (st : GridState) : List CEvent :=
  (batchResults server st).filterMap fun r =>
    match r.2 with
    | .ok ev => some ev
    | .error _ => none

/-- The (row id, outcome) pairs whose update calls failed. -/
def batchFailed (server : BatchPayload → Except String CEvent)
    (st : GridState) : List (String × Except String CEvent) :=
  (batchResults server st).filter fun r =>
    match r.2 with
    | .ok _ => false
    | .error _ => true

/-- applyBatchEdit. The N concurrent PATCH calls are the abstract parameter
server, one outcome per payload; the function returns the component state
after all results have been folded in. -/
def applyBatchEdit (env : JsEnv) (server : BatchPayload → Except String CEvent)
    (st : GridState) : GridState :=
  if st.batchSaving || st.selectedRowIds.isEmpty then st else
  if (batchSelected st).isEmpty then { st with selectedRowIds := [] } else
  if st.batchEditField = .category ∧ jsTrim st.batchEditText = "" then
    { st with error := some "Category cannot be empty when applying a bulk edit." }
  else
    let updated := batchUpdated server st
    let failed := batchFailed server st
    let st1 :=
      if updated.isEmpty then st
      else
        { st with
          events := st.events.map fun e =>
            (updated.reverse.find? (fun u => decide (u.id = e.id))).getD e,
          drafts := updated.foldl
            (fun ds ev => setDraft ds ev.id (toDraft env ev)) st.drafts,
          editingId := none }
    let st2 :=
      if failed.isEmpty then
        { st1 with
          selectedRowIds := [],
          batchEditText :=
            if st.batchEditField ≠ .status then "" else st.batchEditText,
          error := none }
      else
        { st1 with
          selectedRowIds := failed.map (fun r => r.1),
          error := some ("Updated " ++ toString updated.length ++ " row(s). " ++
            toString failed.length ++ " row(s) failed.") }
    { st2 with batchSaving := false }

/- ## Concrete fixtures used by the witnesses -/

/-- A closed historical event of subject k. -/
def evClosed : Event :=
  { id := "e1", userUpn := "k", title := "Write spec", type := "Admin",
    status := .IN_PROGRESS, project := none, notes := none,
    referenceId := none, startedAt := 500, endedAt := some 600,
    visibility := .PUBLIC, redactedLabel := none }

/-- An open event of subject k. -/
def evOpen : Event :=
  { id := "e2", userUpn := "k", title := "Deep work", type := "Focus",
    status := .IN_PROGRESS, project := none, notes := none,
    referenceId := none, startedAt := 800, endedAt := none,
    visibility := .PUBLIC, redactedLabel := none }

/-- A redacted active record without a redactedLabel. -/
def redActive : ActiveActivity :=
  { id := "k:active", userUpn := "k", title := "Secret", type := "Ops",
    status := .IN_PROGRESS, project := some "P", notes := some "N",
    referenceId := some "R", startedAt := 0, lastHeartbeatAt := 0,
    visibility := .REDACTED, redactedLabel := none }

/-- A tiny deterministic stand-in for the JS date parser. -/
def pdFix : String → Option Int := fun v =>
  if v = "T10" then some 1000 else if v = "T9" then some 900 else none

/-- A closed event starting at 1000, used for the end-before-start patch. -/
def evLate : Event :=
  { id := "e3", userUpn := "k", title := "Late", type := "Admin",
    status := .COMPLETED, project := none, notes := none, referenceId := none,
    startedAt := 1000, endedAt := some 1200, visibility := .PUBLIC,
    redactedLabel := none }

/-- A concrete grid environment for witnesses: deterministic stand-ins for
the JS date/locale runtime. -/
def envFix : JsEnv :=
  { dateMs := fun _ => 0, parseDate := fun _ => none,
    fmtInstant := fun _ => "t",
    collate := fun a b => if a = b then 0 else if a < b then -1 else 1,
    isoSlice16 := fun _ => "", tzOffsetMin := 0 }

/-- A concrete client event row. -/
def cev1 : CEvent :=
  { id := "e1", userUpn := "k", title := "Alpha", type := "Admin",
    status := .IN_PROGRESS, project := none, notes := none,
    referenceId := none, startedAt := "S", endedAt := none }

/-- An empty database. -/
def emptyDb : Db := { events := [], actives := [] }

/-- Two concrete create bodies and a call sequence for the invariant
witnesses. -/
def bodyA : CurrentBody := { title := some "A", category := some "B" }

def bodyC : CurrentBody := { title := some "C", category := some "D" }

def opsFix : List Op :=
  [.start .OWNER bodyA 500 "e1", .start .OWNER bodyC 600 "e2",
   .stop .OWNER 700]

/-- Two more client rows for the batch edit witness. -/
def cev2 : CEvent :=
  { id := "e2", userUpn := "k", title := "Beta", type := "Ops",
    status := .ON_HOLD, project := none, notes := none,
    referenceId := none, startedAt := "S", endedAt := some "E" }

def cev3 : CEvent :=
  { id := "e3", userUpn := "k", title := "Gamma", type := "Admin",
    status := .COMPLETED, project := none, notes := none,
    referenceId := none, startedAt := "S", endedAt := some "E" }

/-- A concrete batch server: the update of row e2 is rejected by
validation, the others succeed with the new project value. -/
def srvFix : BatchPayload → Except String CEvent := fun p =>
  if p.id = "e2" then .error "Task and category are required"
  else if p.id = "e1" then .ok { cev1 with project := some "X" }
  else .ok { cev3 with project := some "X" }

/-- A concrete grid state: three rows, all selected, batch-editing the
project field. -/
def gridFix : GridState :=
  { events := [cev1, cev2, cev3], drafts := [],
    selectedRowIds := ["e1", "e2", "e3"], error := none, editingId := none,
    batchSaving := false, batchEditField := .project, batchEditText := "X",
    batchEditStatus := .IN_PROGRESS }

/- ## Theorems -/

/-- An id-keyed upsert always leaves a row carrying the requested id. -/
theorem upsert_find_isSome (l : List ActiveActivity) (rid : String)
    (f : ActiveActivity → ActiveActivity) (c : ActiveActivity)
    (hf : ∀ a, (f a).id = a.id) (hc : c.id = rid) :
    ((if l.any (fun a => decide (a.id = rid)) then
        l.map (fun a => if a.id = rid then f a else a)
      else l ++ [c]).find? (fun a => decide (a.id = rid))).isSome := by
  by_cases hany : l.any (fun a => decide (a.id = rid)) = true
  · rw [if_pos hany, List.find?_isSome]
    obtain ⟨a, ha, hpa⟩ := List.any_eq_true.mp hany
    have hid : a.id = rid := of_decide_eq_true hpa
    refine ⟨f a, List.mem_map.mpr ⟨a, ha, by rw [if_pos hid]⟩, ?_⟩
    simp [hf, hid]
  · rw [if_neg hany, List.find?_isSome]
    exact ⟨c, by simp, by simp [hc]⟩

/-- C3: a record or event with visibility REDACTED returned by GetCurrent or
ListEvents to a non-owner viewer has title equal to the redactedLabel when
one is set and otherwise to the fixed fallback string, with project, notes
and referenceId all null; an owner receives the real fields unmodified. -/
theorem redaction_rules :
    (∀ role s db a, role ≠ Role.OWNER →
      db.actives.find? (fun x => decide (x.userUpn = s)) = some a →
      a.visibility = .REDACTED →
      getCurrent role s db = some (redactActiveRow a)) ∧
    (∀ s db, getCurrent Role.OWNER s db =
      db.actives.find? (fun x => decide (x.userUpn = s))) ∧
    (∀ role s db, role ≠ Role.OWNER →
      listEvents role s db = (listEvents Role.OWNER s db).map
        (fun e => if e.visibility = .REDACTED then redactEventRow e else e)) ∧
    (∀ a : ActiveActivity, ∀ l, a.redactedLabel = some l →
      (redactActiveRow a).title = l) ∧
    (∀ a : ActiveActivity, a.redactedLabel = none →
      (redactActiveRow a).title = "Busy - perfectly legal and secret activities") ∧
    (∀ a : ActiveActivity, (redactActiveRow a).project = none ∧
      (redactActiveRow a).notes = none ∧ (redactActiveRow a).referenceId = none) ∧
    (∀ e : Event, ∀ l, e.redactedLabel = some l → (redactEventRow e).title = l) ∧
    (∀ e : Event, e.redactedLabel = none →
      (redactEventRow e).title = "Busy - perfectly legal and secret activities") ∧
    (∀ e : Event, (redactEventRow e).project = none ∧
      (redactEventRow e).notes = none ∧ (redactEventRow e).referenceId = none) := by
  refine ⟨?_, ?_, ?_, ?_, ?_, ?_, ?_, ?_, ?_⟩
  · intro role s db a hrole hfind hvis
    simp [getCurrent, hfind, hrole, hvis]
  · intro s db
    cases hfind : db.actives.find? (fun x => decide (x.userUpn = s)) with
    | none => simp [getCurrent, hfind]
    | some a => simp [getCurrent, hfind]
  · intro role s db hrole
    simp [listEvents, hrole]
  · intro a l h
    simp [redactActiveRow, redactTitle, h]
  · intro a h
    simp [redactActiveRow, redactTitle, h]
  · intro a
    simp [redactActiveRow]
  · intro e l h
    simp [redactEventRow, redactTitle, h]
  · intro e h
    simp [redactEventRow, redactTitle, h]
  · intro e
    simp [redactEventRow]

/-- Witness: a concrete redacted active record without a label, fetched by a
non-owner, shows the fallback title and nulled optional fields. -/
theorem redaction_rules_witness :
    getCurrent Role.VIEWER "k" { events := [], actives := [redActive] } =
      some (redactActiveRow redActive) ∧
    (redactActiveRow redActive).title =
      "Busy - perfectly legal and secret activities" ∧
    (redactActiveRow redActive).project = none :=
  ⟨redaction_rules.1 Role.VIEWER "k" _ _ (by decide) (by rfl) (by rfl),
   by decide, by decide⟩

/-- C4: a patch that explicitly sets endTime to the empty string on an event
whose stored endedAt is non-null fails with the reopening validation error,
and the failed call leaves the database, in particular the event row,
unchanged. -/
theorem no_reopen_on_closed_event (parseDate : String → Option Int)
    (s : String) (body : PatchBody) (now : Int) (db : Db) (existing : Event)
    (t : Int)
    (hfind : findPatchTarget s (jsTrim (body.id.getD "")) db = some existing)
    (hid : jsTrim (body.id.getD "") ≠ "")
    (hclosed : existing.endedAt = some t)
    (hend : body.endTime = some "")
    (htitle : patchNextTitle body existing ≠ "")
    (hcat : patchNextCategory body existing ≠ "") :
    updateEvent parseDate Role.OWNER s body now db =
      .error (.badRequest "Re-opening historical events is not supported") ∧
    step parseDate s db (.patch Role.OWNER body now) = db := by
  have htrim : jsTrim "" = "" := by decide
  have hpe : patchParsedEnd parseDate body = some none := by
    simp [patchParsedEnd, hend, parseOptionalDate, htrim]
  have hne : patchNextEnd parseDate body existing = none := by
    simp [patchNextEnd, hpe]
  have h1 : updateEvent parseDate Role.OWNER s body now db =
      .error (.badRequest "Re-opening historical events is not supported") := by
    simp [updateEvent, hid, hfind, htitle, hcat, hne, endBeforeStart, hclosed,
      hpe]
  exact ⟨h1, by simp [step, h1]⟩

/-- Witness for the no-reopen theorem at a concrete closed event. -/
theorem no_reopen_on_closed_event_witness :
    updateEvent (fun _ => none) Role.OWNER "k"
      { id := some "e1", endTime := some "" } 700
      { events := [evClosed], actives := [] } =
      .error (.badRequest "Re-opening historical events is not supported") :=
  (no_reopen_on_closed_event (fun _ => none) "k"
    { id := some "e1", endTime := some "" } 700 _ evClosed 600 (by rfl)
    (by decide) (by rfl) (by rfl) (by decide) (by decide)).1

/-- C7: a StartOrUpdateCurrent call whose endTime parses strictly before the
effective startTime, and an UpdateEvent call whose resulting endedAt is
strictly before the resulting startedAt, fail with the end-before-start
validation error and write nothing. -/
theorem end_before_start_rejected (parseDate : String → Option Int)
    (s : String) (now : Int) (db : Db) :
    (∀ (body : CurrentBody) (newId : String) (tEnd : Int),
      jsTrim (body.title.getD "") ≠ "" →
      jsTrim (body.category.getD (body.type.getD "")) ≠ "" →
      parseOptionalDate parseDate body.endTime = some tEnd →
      tEnd < (parseOptionalDate parseDate body.startTime).getD now →
      startOrUpdateCurrent parseDate Role.OWNER s body now newId db =
        .error (.badRequest "End time must be after start time") ∧
      step parseDate s db (.start Role.OWNER body now newId) = db) ∧
    (∀ (body : PatchBody) (existing : Event) (tEnd : Int),
      findPatchTarget s (jsTrim (body.id.getD "")) db = some existing →
      jsTrim (body.id.getD "") ≠ "" →
      patchNextTitle body existing ≠ "" →
      patchNextCategory body existing ≠ "" →
      patchNextEnd parseDate body existing = some tEnd →
      tEnd < patchNextStart parseDate body existing →
      updateEvent parseDate Role.OWNER s body now db =
        .error (.badRequest "End time must be after start time") ∧
      step parseDate s db (.patch Role.OWNER body now) = db) := by
  constructor
  · intro body newId tEnd htitle hcat hend hlt
    have h1 : startOrUpdateCurrent parseDate Role.OWNER s body now newId db =
        .error (.badRequest "End time must be after start time") := by
      simp [startOrUpdateCurrent, htitle, hcat, hend, endBeforeStart, hlt]
    exact ⟨h1, by simp [step, h1]⟩
  · intro body existing tEnd hfind hid htitle hcat hend hlt
    have h1 : updateEvent parseDate Role.OWNER s body now db =
        .error (.badRequest "End time must be after start time") := by
      simp [updateEvent, hid, hfind, htitle, hcat, hend, endBeforeStart, hlt]
    exact ⟨h1, by simp [step, h1]⟩

/-- Witness for the end-before-start theorem: a concrete create whose end
instant 900 precedes its start instant 1000, and a concrete patch moving
endedAt before startedAt. -/
theorem end_before_start_rejected_witness :
    (startOrUpdateCurrent pdFix Role.OWNER "k"
        { title := some "A", category := some "B", startTime := some "T10",
          endTime := some "T9" } 0 "e9" { events := [], actives := [] } =
      .error (.badRequest "End time must be after start time")) ∧
    (updateEvent pdFix Role.OWNER "k"
        { id := some "e3", endTime := some "T9" } 0
        { events := [evLate], actives := [] } =
      .error (.badRequest "End time must be after start time")) := by
  constructor
  · exact ((end_before_start_rejected pdFix "k" 0
      { events := [], actives := [] }).1
      { title := some "A", category := some "B", startTime := some "T10",
        endTime := some "T9" } "e9" 900 (by decide) (by decide) (by rfl)
      (by decide)).1
  · exact ((end_before_start_rejected pdFix "k" 0 _).2
      { id := some "e3", endTime := some "T9" } evLate 900 (by rfl)
      (by decide) (by decide) (by decide) (by rfl) (by decide)).1

/-- C9: an UpdateEvent patch whose status string does not normalize to one
of the four task statuses keeps the stored status unchanged and raises no
error, while the same input on StartOrUpdateCurrent becomes IN_PROGRESS. -/
theorem unrecognized_status_kept_on_patch (parseDate : String → Option Int)
    (s : String) (body : PatchBody) (now : Int) (db : Db) (existing : Event)
    (v : String)
    (hfind : findPatchTarget s (jsTrim (body.id.getD "")) db = some existing)
    (hid : jsTrim (body.id.getD "") ≠ "")
    (hstatus : body.status = some v)
    (hnost : statusOfString? (normalizeStatusKey v) = none)
    (htitle : patchNextTitle body existing ≠ "")
    (hcat : patchNextCategory body existing ≠ "")
    (hnoend : endBeforeStart (patchNextEnd parseDate body existing)
      (patchNextStart parseDate body existing) = false)
    (hnoreopen : ¬(existing.endedAt ≠ none ∧
      patchParsedEnd parseDate body = some none)) :
    (∃ db', updateEvent parseDate Role.OWNER s body now db =
        .ok (db', patchedEvent parseDate body existing)) ∧
    (patchedEvent parseDate body existing).status = existing.status ∧
    normalizeStatus (some v) = .IN_PROGRESS := by
  have hkeep : patchNextStatus body existing = existing.status := by
    simp [patchNextStatus, hstatus, normalizeStatusEv, hnost]
  refine ⟨?_, by simp [patchedEvent, hkeep], by simp [normalizeStatus, hnost]⟩
  simp only [updateEvent, hid, hfind, htitle, hcat, hnoend, hnoreopen]
  exact ⟨_, rfl⟩

/-- Witness for the unrecognized-status theorem at a concrete patch carrying
status bogus against a stored IN_PROGRESS event. -/
theorem unrecognized_status_kept_on_patch_witness :
    (∃ db', updateEvent (fun _ => none) Role.OWNER "k"
        { id := some "e1", status := some "bogus" } 700
        { events := [evClosed], actives := [] } =
      .ok (db', patchedEvent (fun _ => none)
        { id := some "e1", status := some "bogus" } evClosed)) ∧
    (patchedEvent (fun _ => none) { id := some "e1", status := some "bogus" }
      evClosed).status = evClosed.status :=
  have h := unrecognized_status_kept_on_patch (fun _ => none) "k"
    { id := some "e1", status := some "bogus" } 700
    { events := [evClosed], actives := [] } evClosed "bogus" (by rfl)
    (by decide) (by rfl) (by decide) (by decide) (by decide) (by decide)
    (by decide)
  ⟨h.1, h.2.1⟩

/-- C10: a StartOrUpdateCurrent call whose startTime or endTime string is
present but blank or unparseable treats that value as absent rather than
rejecting it. First part: an unparseable startTime (whatever the endTime)
raises no validation error for it and makes the new event start at the
current time. Second part: an unparseable endTime (whatever the startTime)
raises no validation error for it, creates an open event, and upserts the
active record (returned non-null). -/
theorem malformed_dates_treated_as_absent (parseDate : String → Option Int)
    (s : String) (now : Int) (newId : String) (db : Db) :
    (∀ body : CurrentBody,
      jsTrim (body.title.getD "") ≠ "" →
      jsTrim (body.category.getD (body.type.getD "")) ≠ "" →
      body.startTime.isSome →
      parseOptionalDate parseDate body.startTime = none →
      endBeforeStart (parseOptionalDate parseDate body.endTime) now = false →
      db.events.any (fun e => decide (e.id = newId)) = false →
      ∃ r, startOrUpdateCurrent parseDate Role.OWNER s body now newId db =
          .ok r ∧
        ∃ e ∈ r.db.events, e.id = newId ∧ e.startedAt = now) ∧
    (∀ body : CurrentBody,
      jsTrim (body.title.getD "") ≠ "" →
      jsTrim (body.category.getD (body.type.getD "")) ≠ "" →
      body.endTime.isSome →
      parseOptionalDate parseDate body.endTime = none →
      db.events.any (fun e => decide (e.id = newId)) = false →
      ∃ r, startOrUpdateCurrent parseDate Role.OWNER s body now newId db =
          .ok r ∧
        r.active.isSome ∧
        ∃ e ∈ r.db.events, e.id = newId ∧ e.endedAt = none ∧
          e.startedAt = (parseOptionalDate parseDate body.startTime).getD now) := by
  constructor
  · intro body htitle hcat _hstart hstartbad hebs hfresh
    cases hET : parseOptionalDate parseDate body.endTime with
    | some tE =>
      rw [hET] at hebs
      simp only [startOrUpdateCurrent, htitle, hcat, hstartbad, hET, hfresh]
      simp only [ne_eq, not_true_eq_false, if_false, ite_false, if_true,
        ite_true, Bool.false_eq_true, decide_not, Option.getD_none, hebs]
      refine ⟨_, rfl, ?_⟩
      exact ⟨_, List.mem_append_right _ (List.mem_singleton.mpr rfl), rfl, rfl⟩
    | none =>
      by_cases hany : db.actives.any (fun a => decide (a.id = activeRowId s)) = true
      · simp only [startOrUpdateCurrent, htitle, hcat, hstartbad, hET, hfresh,
          hany]
        simp only [ne_eq, not_true_eq_false, if_false, ite_false, if_true,
          ite_true, Bool.false_eq_true, decide_not, Option.getD_none,
          endBeforeStart]
        refine ⟨_, rfl, ?_⟩
        exact ⟨_, List.mem_append_right _ (List.mem_singleton.mpr rfl), rfl, rfl⟩
      · have hany' : db.actives.any (fun a => decide (a.id = activeRowId s)) = false :=
          Bool.eq_false_iff.mpr hany
        simp only [startOrUpdateCurrent, htitle, hcat, hstartbad, hET, hfresh,
          hany']
        simp only [ne_eq, not_true_eq_false, if_false, ite_false, if_true,
          ite_true, Bool.false_eq_true, decide_not, Option.getD_none,
          endBeforeStart]
        refine ⟨_, rfl, ?_⟩
        exact ⟨_, List.mem_append_right _ (List.mem_singleton.mpr rfl), rfl, rfl⟩
  · intro body htitle hcat _hend hendbad hfresh
    simp only [startOrUpdateCurrent, htitle, hcat, hendbad, endBeforeStart,
      hfresh]
    refine ⟨_, rfl, ?_, ?_⟩
    · exact upsert_find_isSome db.actives (activeRowId s) _ _ (fun a => rfl) rfl
    · exact ⟨_, List.mem_append_right _ (List.mem_singleton.mpr rfl), rfl, rfl,
        rfl⟩

/-- Witness for the malformed-dates theorem, exercising each part outside
the intersection: an unparseable startTime combined with a valid endTime
still succeeds and starts the event at now = 42, and a valid startTime
combined with a blank endTime creates an open event at instant 1000 with an
upserted active record. -/
theorem malformed_dates_treated_as_absent_witness :
    (∃ r, startOrUpdateCurrent pdFix Role.OWNER "k"
        { title := some "A", category := some "B", startTime := some "garbage",
          endTime := some "T10" } 42 "e1" { events := [], actives := [] } =
        .ok r ∧
      ∃ e ∈ r.db.events, e.id = "e1" ∧ e.startedAt = 42) ∧
    (∃ r, startOrUpdateCurrent pdFix Role.OWNER "k"
        { title := some "A", category := some "B", startTime := some "T10",
          endTime := some "   " } 42 "e1" { events := [], actives := [] } =
        .ok r ∧
      r.active.isSome ∧
      ∃ e ∈ r.db.events, e.id = "e1" ∧ e.endedAt = none ∧
        e.startedAt = (parseOptionalDate pdFix (some "T10")).getD 42) :=
  ⟨(malformed_dates_treated_as_absent pdFix "k" 42 "e1"
      { events := [], actives := [] }).1
    { title := some "A", category := some "B", startTime := some "garbage",
      endTime := some "T10" }
    (by decide) (by decide) (by rfl) (by decide) (by decide) (by rfl),
   (malformed_dates_treated_as_absent pdFix "k" 42 "e1"
      { events := [], actives := [] }).2
    { title := some "A", category := some "B", startTime := some "T10",
      endTime := some "   " }
    (by decide) (by decide) (by rfl) (by decide) (by rfl)⟩

/-- C8: the grid filter computation is a pure derived function and applying
it twice yields the same row set as applying it once; toggling the sort
direction twice on the active sort column restores the sort state and hence
the displayed order. -/
theorem filter_idempotent_and_toggle_involutive (env : JsEnv)
    (filters : ColumnKey → String) (nowTick : Int) (evs : List CEvent)
    (st : SortState) (k : ColumnKey) (hk : st.sortKey = k) :
    filterRows env filters nowTick (filterRows env filters nowTick evs) =
      filterRows env filters nowTick evs ∧
    toggleSort (toggleSort st k) k = st ∧
    filteredSortedEvents env filters (toggleSort (toggleSort st k) k) nowTick
        evs =
      filteredSortedEvents env filters st nowTick evs := by
  have htog : toggleSort (toggleSort st k) k = st := by
    cases st with
    | mk key dir =>
      simp only at hk
      subst hk
      cases dir <;> simp [toggleSort]
  refine ⟨?_, htog, by rw [htog]⟩
  unfold filterRows
  rw [List.filter_filter]
  apply List.filter_congr
  intro a _
  exact Bool.and_self _

/-- Witness for the grid theorem at a one-row list with empty filters and a
title sort. -/
theorem filter_idempotent_and_toggle_involutive_witness :
    filterRows envFix (fun _ => "") 0 (filterRows envFix (fun _ => "") 0 [cev1]) =
      filterRows envFix (fun _ => "") 0 [cev1] ∧
    toggleSort (toggleSort ⟨.title, .asc⟩ .title) .title =
      (⟨.title, .asc⟩ : SortState) ∧
    filteredSortedEvents envFix (fun _ => "")
        (toggleSort (toggleSort ⟨.title, .asc⟩ .title) .title) 0 [cev1] =
      filteredSortedEvents envFix (fun _ => "") ⟨.title, .asc⟩ 0 [cev1] :=
  filter_idempotent_and_toggle_involutive envFix (fun _ => "") 0 [cev1]
    ⟨.title, .asc⟩ .title rfl

/- ## Helper lemmas for the state invariants -/

/-- Closing every open event of the subject leaves it with no open event. -/
theorem filter_open_closeOpenEvents (s : String) (t : Int) (evs : List Event) :
    (closeOpenEvents s t evs).filter
      (fun e => decide (e.userUpn = s ∧ e.endedAt = none)) = [] := by
  induction evs with
  | nil => rfl
  | cons e rest ih =>
    unfold closeOpenEvents at ih ⊢
    simp only [List.map_cons, List.filter_cons]
    by_cases h : e.userUpn = s ∧ e.endedAt = none
    · rw [if_pos h]
      simpa using ih
    · rw [if_neg h]
      have hd : decide (e.userUpn = s ∧ e.endedAt = none) = false := by
        simpa using h
      rw [hd]
      simpa using ih

/-- The open events after close-and-append are at most the appended one. -/
theorem openEvents_close_append (s : String) (t : Int) (evs : List Event)
    (newEv : Event) (acts : List ActiveActivity) :
    openEvents s { events := closeOpenEvents s t evs ++ [newEv], actives := acts } =
      if newEv.userUpn = s ∧ newEv.endedAt = none then [newEv] else [] := by
  unfold openEvents
  rw [List.filter_append, filter_open_closeOpenEvents]
  by_cases h : newEv.userUpn = s ∧ newEv.endedAt = none
  · simp [h]
  · simp [h]

/-- A pointwise map that never turns a failing row into a passing one does
not increase the number of passing rows. -/
theorem length_filter_map_le {p : Event → Bool} {f : Event → Event}
    {l : List Event} (h : ∀ e ∈ l, p (f e) = true → p e = true) :
    ((l.map f).filter p).length ≤ (l.filter p).length := by
  induction l with
  | nil => simp
  | cons e rest ih =>
    have hrest := ih (fun x hx hpx => h x (List.mem_cons_of_mem _ hx) hpx)
    simp only [List.map_cons, List.filter_cons]
    by_cases hfe : p (f e) = true
    · have hpe : p e = true := h e (List.mem_cons_self e rest) hfe
      rw [if_pos hfe, if_pos hpe]
      simpa using hrest
    · rw [if_neg hfe]
      by_cases hpe : p e = true
      · rw [if_pos hpe]
        simp only [List.length_cons]
        omega
      · rw [if_neg hpe]
        exact hrest

/-- A pointwise map that keeps every id keeps the id list. -/
theorem map_id_of_preserves (f : Event → Event) (evs : List Event)
    (hf : ∀ e, (f e).id = e.id) :
    (evs.map f).map Event.id = evs.map Event.id := by
  rw [List.map_map]
  exact List.map_congr_left (fun e _ => hf e)

/-- Uniqueness of ids after closing the open events and appending a row
with a fresh id. -/
theorem nodup_ids_close_append (s : String) (t : Int) (evs : List Event)
    (newEv : Event)
    (hnd : (evs.map Event.id).Nodup)
    (hfresh : evs.any (fun e => decide (e.id = newEv.id)) = false) :
    ((closeOpenEvents s t evs ++ [newEv]).map Event.id).Nodup := by
  have h1 : (closeOpenEvents s t evs).map Event.id = evs.map Event.id := by
    unfold closeOpenEvents
    apply map_id_of_preserves
    intro e
    by_cases h : e.userUpn = s ∧ e.endedAt = none <;> simp [h]
  rw [List.map_append, h1, List.map_singleton]
  rw [List.nodup_append]
  refine ⟨hnd, List.nodup_singleton _, ?_⟩
  intro x hx hx2
  have hxid : x = newEv.id := by simpa using hx2
  obtain ⟨e, he, rfl⟩ := List.mem_map.mp hx
  have : evs.any (fun e => decide (e.id = newEv.id)) = true :=
    List.any_eq_true.mpr ⟨e, he, decide_eq_true hxid⟩
  rw [hfresh] at this
  exact Bool.false_ne_true this

/-- Deleting every active of the subject leaves it with no active record. -/
theorem subjectActives_filter_ne (s : String) (evs : List Event)
    (acts : List ActiveActivity) :
    subjectActives s
      { events := evs,
        actives := acts.filter (fun a => !decide (a.userUpn = s)) } = [] := by
  apply List.eq_nil_iff_forall_not_mem.mpr
  intro a ha
  unfold subjectActives at ha
  rw [List.mem_filter] at ha
  rcases ha with ⟨ha1, ha2⟩
  rw [List.mem_filter] at ha1
  rcases ha1 with ⟨_, hne⟩
  rw [ha2] at hne
  simp at hne

/-- Rows surviving a filter keep the id shape. -/
theorem shape_filter (s : String) (acts : List ActiveActivity)
    (hshape : ∀ a ∈ acts, a.id = activeRowId a.userUpn) :
    ∀ a ∈ acts.filter (fun a => !decide (a.userUpn = s)),
      a.id = activeRowId a.userUpn := by
  intro a ha
  exact hshape a (List.mem_filter.mp ha).1

/-- An id-keyed row update preserves the id shape when the updated row does. -/
theorem shape_map_upsert (rid : String) (f : ActiveActivity → ActiveActivity)
    (acts : List ActiveActivity)
    (hshape : ∀ a ∈ acts, a.id = activeRowId a.userUpn)
    (hf : ∀ a ∈ acts, a.id = rid → (f a).id = activeRowId (f a).userUpn) :
    ∀ a' ∈ acts.map (fun a => if a.id = rid then f a else a),
      a'.id = activeRowId a'.userUpn := by
  intro a' ha'
  obtain ⟨a, ha, rfl⟩ := List.mem_map.mp ha'
  by_cases h : a.id = rid
  · rw [if_pos h]
    exact hf a ha h
  · rw [if_neg h]
    exact hshape a ha

/-- Appending a well-shaped row preserves the id shape. -/
theorem shape_append_create (acts : List ActiveActivity) (c : ActiveActivity)
    (hshape : ∀ a ∈ acts, a.id = activeRowId a.userUpn)
    (hc : c.id = activeRowId c.userUpn) :
    ∀ a ∈ acts ++ [c], a.id = activeRowId a.userUpn := by
  intro a ha
  rcases List.mem_append.mp ha with h | h
  · exact hshape a h
  · rw [List.mem_singleton.mp h]
    exact hc

/-- After an id-keyed upsert over a well-shaped list, every row of the
subject satisfies any property enjoyed by all updated rows. -/
theorem mirrors_map_upsert (s : String) (f : ActiveActivity → ActiveActivity)
    (acts : List ActiveActivity) (P : ActiveActivity → Prop)
    (hshape : ∀ a ∈ acts, a.id = activeRowId a.userUpn)
    (hfP : ∀ a, P (f a)) :
    ∀ a' ∈ (acts.map (fun a => if a.id = activeRowId s then f a else a)).filter
        (fun a => decide (a.userUpn = s)), P a' := by
  intro a' ha'
  rw [List.mem_filter] at ha'
  rcases ha' with ⟨hmem, hupn⟩
  obtain ⟨a, ha, himg⟩ := List.mem_map.mp hmem
  by_cases h : a.id = activeRowId s
  · rw [if_pos h] at himg
    rw [← himg]
    exact hfP a
  · rw [if_neg h] at himg
    exfalso
    apply h
    rw [hshape a ha]
    rw [himg]
    rw [of_decide_eq_true hupn]

/-- After appending a fresh active row to a well-shaped list holding none
for the subject, every row of the subject satisfies any property of the new
row. -/
theorem mirrors_append_create (s : String) (acts : List ActiveActivity)
    (c : ActiveActivity) (P : ActiveActivity → Prop)
    (hshape : ∀ a ∈ acts, a.id = activeRowId a.userUpn)
    (hnone : acts.any (fun a => decide (a.id = activeRowId s)) = false)
    (hcP : P c) :
    ∀ a' ∈ (acts ++ [c]).filter (fun a => decide (a.userUpn = s)), P a' := by
  intro a' ha'
  rw [List.mem_filter, List.mem_append] at ha'
  rcases ha' with ⟨h1 | h1, h2⟩
  · exfalso
    have hupn : a'.userUpn = s := of_decide_eq_true h2
    have hid : a'.id = activeRowId s := by rw [hshape a' h1, hupn]
    have : acts.any (fun a => decide (a.id = activeRowId s)) = true :=
      List.any_eq_true.mpr ⟨a', h1, decide_eq_true hid⟩
    rw [hnone] at this
    exact Bool.false_ne_true this
  · rw [List.mem_singleton.mp h1]
    exact hcP

/-- StopCurrent preserves the consistency invariant. -/
theorem consistent_stop (parseDate : String → Option Int) (s : String)
    (role : Role) (now : Int) (db : Db) (h : Consistent s db) :
    Consistent s (step parseDate s db (.stop role now)) := by
  by_cases hrole : role = Role.OWNER
  case neg =>
    have hstep : step parseDate s db (.stop role now) = db := by
      simp [step, stopCurrent, hrole]
    rw [hstep]
    exact h
  case pos =>
    subst hrole
    cases hlo : latestOpen s db.events with
    | none =>
      have hstep : step parseDate s db (.stop Role.OWNER now) =
          { events := db.events,
            actives := db.actives.filter (fun a => !decide (a.userUpn = s)) } := by
        simp [step, stopCurrent, hlo]
      rw [hstep]
      refine ⟨h.ids_nodup, h.open_le_one, ?_, ?_⟩
      · exact shape_filter s db.actives h.shape
      · intro a ha
        rw [show subjectActives s
            { events := db.events,
              actives := db.actives.filter (fun a => !decide (a.userUpn = s)) } =
            [] from subjectActives_filter_ne s db.events db.actives] at ha
        exact absurd ha (List.not_mem_nil a)
    | some o =>
      have hstep : step parseDate s db (.stop Role.OWNER now) =
          { events := db.events.map
              (fun e => if e.id = o.id then { e with endedAt := some now } else e),
            actives := db.actives.filter (fun a => !decide (a.userUpn = s)) } := by
        simp [step, stopCurrent, hlo]
      rw [hstep]
      have hids : ((db.events.map
          (fun e => if e.id = o.id then { e with endedAt := some now } else e)).map
            Event.id) = db.events.map Event.id := by
        apply map_id_of_preserves
        intro e
        by_cases hid : e.id = o.id <;> simp [hid]
      refine ⟨?_, ?_, ?_, ?_⟩
      · show ((db.events.map
            (fun e => if e.id = o.id then { e with endedAt := some now } else e)).map
              Event.id).Nodup
        rw [hids]
        exact h.ids_nodup
      · show ((db.events.map
            (fun e => if e.id = o.id then { e with endedAt := some now } else e)).filter
              (fun e => decide (e.userUpn = s ∧ e.endedAt = none))).length ≤ 1
        refine le_trans (length_filter_map_le ?_) h.open_le_one
        intro e _ hpf
        by_cases hid : e.id = o.id
        · rw [if_pos hid] at hpf
          simp at hpf
        · rw [if_neg hid] at hpf
          exact hpf
      · exact shape_filter s db.actives h.shape
      · intro a ha
        rw [show subjectActives s
            { events := db.events.map
                (fun e => if e.id = o.id then { e with endedAt := some now } else e),
              actives := db.actives.filter (fun a => !decide (a.userUpn = s)) } =
            [] from subjectActives_filter_ne s _ db.actives] at ha
        exact absurd ha (List.not_mem_nil a)

/-- StartOrUpdateCurrent preserves the consistency invariant. -/
theorem consistent_start (parseDate : String → Option Int) (s : String)
    (role : Role) (body : CurrentBody) (now : Int) (newId : String) (db : Db)
    (h : Consistent s db) :
    Consistent s (step parseDate s db (.start role body now newId)) := by
  by_cases hrole : role = Role.OWNER
  case neg =>
    have hstep : step parseDate s db (.start role body now newId) = db := by
      simp [step, startOrUpdateCurrent, hrole]
    rw [hstep]
    exact h
  case pos =>
    subst hrole
    by_cases hval : jsTrim (body.title.getD "") = "" ∨
        jsTrim (body.category.getD (body.type.getD "")) = ""
    · have hstep : step parseDate s db (.start Role.OWNER body now newId) = db := by
        simp [step, startOrUpdateCurrent, hval]
      rw [hstep]
      exact h
    by_cases hebs : endBeforeStart (parseOptionalDate parseDate body.endTime)
        ((parseOptionalDate parseDate body.startTime).getD now) = true
    · have hstep : step parseDate s db (.start Role.OWNER body now newId) = db := by
        simp [step, startOrUpdateCurrent, hval, hebs]
      rw [hstep]
      exact h
    by_cases hfr : db.events.any (fun e => decide (e.id = newId)) = true
    · have hstep : step parseDate s db (.start Role.OWNER body now newId) = db := by
        simp [step, startOrUpdateCurrent, hval, hebs, hfr]
      rw [hstep]
      exact h
    have hfresh : db.events.any (fun e => decide (e.id = newId)) = false :=
      Bool.eq_false_iff.mpr hfr
    cases hET : parseOptionalDate parseDate body.endTime with
    | some tE =>
      rw [hET] at hebs
      simp only [step, startOrUpdateCurrent, hval, hebs, hET, hfresh]
      simp only [ne_eq, not_true_eq_false, if_false, ite_false, if_neg hebs,
        Bool.false_eq_true, if_true, decide_not]
      refine ⟨?_, ?_, ?_, ?_⟩
      · refine nodup_ids_close_append s _ db.events _ h.ids_nodup ?_
        exact hfresh
      · rw [openEvents_close_append]
        rw [if_neg (by simp)]
        simp
      · intro a ha
        exact h.shape a (List.mem_filter.mp ha).1
      · intro a ha
        rw [subjectActives_filter_ne] at ha
        exact absurd ha (List.not_mem_nil a)
    | none =>
      by_cases hany : db.actives.any (fun a => decide (a.id = activeRowId s)) = true
      · simp only [step, startOrUpdateCurrent, hval, hebs, hET, hfresh, hany]
        simp only [ne_eq, not_true_eq_false, if_false, ite_false,
          Bool.false_eq_true, if_true, ite_true, endBeforeStart, decide_not]
        refine ⟨?_, ?_, ?_, ?_⟩
        · refine nodup_ids_close_append s _ db.events _ h.ids_nodup ?_
          exact hfresh
        · rw [openEvents_close_append]
          rw [if_pos ⟨rfl, rfl⟩]
          simp
        · exact shape_map_upsert (activeRowId s) _ db.actives h.shape
            (fun a ha _ => h.shape a ha)
        · intro a ha
          rw [openEvents_close_append, if_pos ⟨rfl, rfl⟩]
          refine ⟨_, List.mem_singleton_self _, ?_⟩
          refine mirrors_map_upsert s _ db.actives (fun x => MirrorFields x _)
            h.shape ?_ a ha
          exact fun a => ⟨rfl, rfl, rfl, rfl, rfl, rfl⟩
      · have hany' : db.actives.any (fun a => decide (a.id = activeRowId s)) = false :=
          Bool.eq_false_iff.mpr hany
        simp only [step, startOrUpdateCurrent, hval, hebs, hET, hfresh, hany']
        simp only [ne_eq, not_true_eq_false, if_false, ite_false,
          Bool.false_eq_true, if_true, ite_true, endBeforeStart, decide_not]
        refine ⟨?_, ?_, ?_, ?_⟩
        · refine nodup_ids_close_append s _ db.events _ h.ids_nodup ?_
          exact hfresh
        · rw [openEvents_close_append]
          rw [if_pos ⟨rfl, rfl⟩]
          simp
        · exact shape_append_create db.actives _ h.shape rfl
        · intro a ha
          rw [openEvents_close_append, if_pos ⟨rfl, rfl⟩]
          refine ⟨_, List.mem_singleton_self _, ?_⟩
          refine mirrors_append_create s db.actives _ (fun x => MirrorFields x _)
            h.shape hany' ?_ a ha
          exact ⟨rfl, rfl, rfl, rfl, rfl, rfl⟩

/-- The PATCH upsert produces only well-shaped rows. -/
theorem shape_upsertActiveMirror (s : String) (ev : Event) (now : Int)
    (acts : List ActiveActivity)
    (hshape : ∀ a ∈ acts, a.id = activeRowId a.userUpn) :
    ∀ a ∈ upsertActiveMirror s ev now acts, a.id = activeRowId a.userUpn := by
  simp only [upsertActiveMirror]
  by_cases hany : acts.any (fun a => decide (a.id = activeRowId s)) = true
  · rw [if_pos hany]
    exact shape_map_upsert _ _ _ hshape (fun a ha hid => by simp [hid])
  · rw [if_neg hany]
    exact shape_append_create _ _ hshape rfl

/-- After the PATCH upsert every row of the subject mirrors the event. -/
theorem mirrors_upsertActiveMirror (s : String) (ev : Event) (now : Int)
    (acts : List ActiveActivity)
    (hshape : ∀ a ∈ acts, a.id = activeRowId a.userUpn) :
    ∀ a ∈ (upsertActiveMirror s ev now acts).filter
        (fun a => decide (a.userUpn = s)), MirrorFields a ev := by
  simp only [upsertActiveMirror]
  by_cases hany : acts.any (fun a => decide (a.id = activeRowId s)) = true
  · rw [if_pos hany]
    exact mirrors_map_upsert s _ acts (fun x => MirrorFields x ev) hshape
      (fun a => ⟨rfl, rfl, rfl, rfl, rfl, rfl⟩)
  · rw [if_neg hany]
    exact mirrors_append_create s acts _ (fun x => MirrorFields x ev) hshape
      (Bool.eq_false_iff.mpr hany) ⟨rfl, rfl, rfl, rfl, rfl, rfl⟩

/-- UpdateEvent preserves the consistency invariant. -/
theorem consistent_patch (parseDate : String → Option Int) (s : String)
    (role : Role) (body : PatchBody) (now : Int) (db : Db)
    (h : Consistent s db) :
    Consistent s (step parseDate s db (.patch role body now)) := by
  by_cases hrole : role = Role.OWNER
  case neg =>
    have hstep : step parseDate s db (.patch role body now) = db := by
      simp [step, updateEvent, hrole]
    rw [hstep]
    exact h
  case pos =>
    subst hrole
    by_cases hid : jsTrim (body.id.getD "") = ""
    · have hstep : step parseDate s db (.patch Role.OWNER body now) = db := by
        simp [step, updateEvent, hid]
      rw [hstep]
      exact h
    cases hfind : findPatchTarget s (jsTrim (body.id.getD "")) db with
    | none =>
      have hstep : step parseDate s db (.patch Role.OWNER body now) = db := by
        simp [step, updateEvent, hid, hfind]
      rw [hstep]
      exact h
    | some existing =>
      have hpred := List.find?_some hfind
      have hmem : existing ∈ db.events := List.mem_of_find?_eq_some hfind
      have hupn : existing.userUpn = s := (of_decide_eq_true hpred).2
      by_cases hval : patchNextTitle body existing = "" ∨
          patchNextCategory body existing = ""
      · have hstep : step parseDate s db (.patch Role.OWNER body now) = db := by
          simp [step, updateEvent, hid, hfind, hval]
        rw [hstep]
        exact h
      by_cases hebs : endBeforeStart (patchNextEnd parseDate body existing)
          (patchNextStart parseDate body existing) = true
      · have hstep : step parseDate s db (.patch Role.OWNER body now) = db := by
          simp [step, updateEvent, hid, hfind, hval, hebs]
        rw [hstep]
        exact h
      by_cases hro : existing.endedAt ≠ none ∧
          patchParsedEnd parseDate body = some none
      · have hstep : step parseDate s db (.patch Role.OWNER body now) = db := by
          simp [step, updateEvent, hid, hfind, hval, hebs, hro]
        rw [hstep]
        exact h
      have hpid : (patchedEvent parseDate body existing).id = existing.id := rfl
      have hpupn : (patchedEvent parseDate body existing).userUpn =
        existing.userUpn := rfl
      have hids : ((db.events.map (fun e =>
          if e.id = existing.id then patchedEvent parseDate body existing
          else e)).map Event.id) = db.events.map Event.id := by
        apply map_id_of_preserves
        intro e
        by_cases he : e.id = existing.id
        · rw [if_pos he, hpid, he]
        · rw [if_neg he]
      by_cases hopen : (patchedEvent parseDate body existing).endedAt = none
      · have hexopen : existing.endedAt = none := by
          have hne : patchNextEnd parseDate body existing = none := hopen
          cases hpp : patchParsedEnd parseDate body with
          | none =>
            rw [patchNextEnd, hpp] at hne
            exact hne
          | some v =>
            rw [patchNextEnd, hpp] at hne
            subst hne
            by_contra hcon
            exact hro ⟨hcon, hpp⟩
        simp only [step, updateEvent, hid, hfind, hval, hebs, hro, hopen,
          ne_eq, not_true_eq_false, not_false_eq_true, if_false, ite_false,
          if_true, ite_true, Bool.false_eq_true, decide_not]
        refine ⟨?_, ?_, ?_, ?_⟩
        · show ((db.events.map (fun e =>
              if e.id = existing.id then patchedEvent parseDate body existing
              else e)).map Event.id).Nodup
          rw [hids]
          exact h.ids_nodup
        · show ((db.events.map (fun e =>
              if e.id = existing.id then patchedEvent parseDate body existing
              else e)).filter
              (fun e => decide (e.userUpn = s ∧ e.endedAt = none))).length ≤ 1
          refine le_trans (length_filter_map_le ?_) h.open_le_one
          intro e he hpf
          by_cases he2 : e.id = existing.id
          · have heq : e = existing :=
              List.inj_on_of_nodup_map h.ids_nodup he hmem he2
            subst heq
            exact decide_eq_true ⟨hupn, hexopen⟩
          · rw [if_neg he2] at hpf
            exact hpf
        · exact shape_upsertActiveMirror s _ now db.actives h.shape
        · intro a ha
          refine ⟨patchedEvent parseDate body existing, ?_, ?_⟩
          · show patchedEvent parseDate body existing ∈
              (db.events.map (fun e =>
                if e.id = existing.id then patchedEvent parseDate body existing
                else e)).filter
                (fun e => decide (e.userUpn = s ∧ e.endedAt = none))
            rw [List.mem_filter]
            constructor
            · exact List.mem_map.mpr ⟨existing, hmem, by rw [if_pos rfl]⟩
            · refine decide_eq_true ⟨?_, hopen⟩
              rw [hpupn]
              exact hupn
          · exact mirrors_upsertActiveMirror s _ now db.actives h.shape a ha
      · by_cases hexopen : existing.endedAt = none
        · simp only [step, updateEvent, hid, hfind, hval, hebs, hro, hopen,
            hexopen, ne_eq, not_true_eq_false, not_false_eq_true, if_false,
            ite_false, if_true, ite_true, Bool.false_eq_true, decide_not,
            false_and, true_and, and_false, and_true]
          refine ⟨?_, ?_, ?_, ?_⟩
          · show ((db.events.map (fun e =>
                if e.id = existing.id then patchedEvent parseDate body existing
                else e)).map Event.id).Nodup
            rw [hids]
            exact h.ids_nodup
          · show ((db.events.map (fun e =>
                if e.id = existing.id then patchedEvent parseDate body existing
                else e)).filter
                (fun e => decide (e.userUpn = s ∧ e.endedAt = none))).length ≤ 1
            refine le_trans (length_filter_map_le ?_) h.open_le_one
            intro e he hpf
            by_cases he2 : e.id = existing.id
            · rw [if_pos he2] at hpf
              exact absurd (of_decide_eq_true hpf).2 hopen
            · rw [if_neg he2] at hpf
              exact hpf
          · intro a ha
            exact h.shape a (List.mem_filter.mp ha).1
          · intro a ha
            rw [subjectActives_filter_ne] at ha
            exact absurd ha (List.not_mem_nil a)
        · have hnotB : ¬(patchParsedEnd parseDate body = some none) :=
            fun hB => hro ⟨hexopen, hB⟩
          simp only [step, updateEvent, hid, hfind, hval, hebs, hro, hopen,
            hexopen, hnotB, ne_eq, not_true_eq_false, not_false_eq_true,
            if_false, ite_false, if_true, ite_true, Bool.false_eq_true,
            decide_not, false_and, true_and, and_false, and_true]
          refine ⟨?_, ?_, ?_, ?_⟩
          · show ((db.events.map (fun e =>
                if e.id = existing.id then patchedEvent parseDate body existing
                else e)).map Event.id).Nodup
            rw [hids]
            exact h.ids_nodup
          · show ((db.events.map (fun e =>
                if e.id = existing.id then patchedEvent parseDate body existing
                else e)).filter
                (fun e => decide (e.userUpn = s ∧ e.endedAt = none))).length ≤ 1
            refine le_trans (length_filter_map_le ?_) h.open_le_one
            intro e he hpf
            by_cases he2 : e.id = existing.id
            · rw [if_pos he2] at hpf
              exact absurd (of_decide_eq_true hpf).2 hopen
            · rw [if_neg he2] at hpf
              exact hpf
          · exact h.shape
          · intro a ha
            obtain ⟨e, he, hm⟩ := h.mirrors a ha
            simp only [openEvents, List.mem_filter] at he
            rcases he with ⟨he1, hp⟩
            have he2 : e.id ≠ existing.id := by
              intro heq
              have he3 : e = existing :=
                List.inj_on_of_nodup_map h.ids_nodup he1 hmem heq
              subst he3
              exact hexopen (of_decide_eq_true hp).2
            refine ⟨e, ?_, hm⟩
            simp only [openEvents, List.mem_filter]
            exact ⟨List.mem_map.mpr ⟨e, he1, by rw [if_neg he2]⟩, hp⟩

/-- Every API call preserves the consistency invariant. -/
theorem consistent_step (parseDate : String → Option Int) (s : String)
    (db : Db) (op : Op) (h : Consistent s db) :
    Consistent s (step parseDate s db op) := by
  cases op with
  | start role body now newId =>
    exact consistent_start parseDate s role body now newId db h
  | stop role now => exact consistent_stop parseDate s role now db h
  | patch role body now => exact consistent_patch parseDate s role body now db h

/-- Every sequence of API calls preserves the consistency invariant. -/
theorem consistent_run (parseDate : String → Option Int) (s : String)
    (db : Db) (ops : List Op) (h : Consistent s db) :
    Consistent s (run parseDate s db ops) := by
  induction ops generalizing db with
  | nil => exact h
  | cons op rest ih => exact ih (step parseDate s db op) (consistent_step parseDate s db op h)

/-- One API call preserves unique event ids together with the at-most-one
open event bound. -/
theorem wf1_step (parseDate : String → Option Int) (s : String) (db : Db)
    (op : Op)
    (h1 : (db.events.map Event.id).Nodup)
    (h2 : (openEvents s db).length ≤ 1) :
    ((step parseDate s db op).events.map Event.id).Nodup ∧
    (openEvents s (step parseDate s db op)).length ≤ 1 := by
  cases op with
  | start role body now newId =>
    by_cases hrole : role = Role.OWNER
    case neg =>
      have hstep : step parseDate s db (.start role body now newId) = db := by
        simp [step, startOrUpdateCurrent, hrole]
      rw [hstep]
      exact ⟨h1, h2⟩
    case pos =>
      subst hrole
      by_cases hval : jsTrim (body.title.getD "") = "" ∨
          jsTrim (body.category.getD (body.type.getD "")) = ""
      · have hstep : step parseDate s db (.start Role.OWNER body now newId) = db := by
          simp [step, startOrUpdateCurrent, hval]
        rw [hstep]
        exact ⟨h1, h2⟩
      by_cases hebs : endBeforeStart (parseOptionalDate parseDate body.endTime)
          ((parseOptionalDate parseDate body.startTime).getD now) = true
      · have hstep : step parseDate s db (.start Role.OWNER body now newId) = db := by
          simp [step, startOrUpdateCurrent, hval, hebs]
        rw [hstep]
        exact ⟨h1, h2⟩
      by_cases hfr : db.events.any (fun e => decide (e.id = newId)) = true
      · have hstep : step parseDate s db (.start Role.OWNER body now newId) = db := by
          simp [step, startOrUpdateCurrent, hval, hebs, hfr]
        rw [hstep]
        exact ⟨h1, h2⟩
      have hfresh : db.events.any (fun e => decide (e.id = newId)) = false :=
        Bool.eq_false_iff.mpr hfr
      cases hET : parseOptionalDate parseDate body.endTime with
      | some tE =>
        rw [hET] at hebs
        simp only [step, startOrUpdateCurrent, hval, hebs, hET, hfresh]
        simp only [ne_eq, not_true_eq_false, if_false, ite_false, if_neg hebs,
          Bool.false_eq_true, if_true, decide_not]
        constructor
        · refine nodup_ids_close_append s _ db.events _ h1 ?_
          exact hfresh
        · rw [openEvents_close_append]
          rw [if_neg (by simp)]
          simp
      | none =>
        by_cases hany : db.actives.any (fun a => decide (a.id = activeRowId s)) = true
        · simp only [step, startOrUpdateCurrent, hval, hebs, hET, hfresh, hany]
          simp only [ne_eq, not_true_eq_false, if_false, ite_false,
            Bool.false_eq_true, if_true, ite_true, endBeforeStart, decide_not]
          constructor
          · refine nodup_ids_close_append s _ db.events _ h1 ?_
            exact hfresh
          · rw [openEvents_close_append]
            rw [if_pos ⟨rfl, rfl⟩]
            simp
        · have hany' : db.actives.any (fun a => decide (a.id = activeRowId s)) = false :=
            Bool.eq_false_iff.mpr hany
          simp only [step, startOrUpdateCurrent, hval, hebs, hET, hfresh, hany']
          simp only [ne_eq, not_true_eq_false, if_false, ite_false,
            Bool.false_eq_true, if_true, ite_true, endBeforeStart, decide_not]
          constructor
          · refine nodup_ids_close_append s _ db.events _ h1 ?_
            exact hfresh
          · rw [openEvents_close_append]
            rw [if_pos ⟨rfl, rfl⟩]
            simp
  | stop role now =>
    by_cases hrole : role = Role.OWNER
    case neg =>
      have hstep : step parseDate s db (.stop role now) = db := by
        simp [step, stopCurrent, hrole]
      rw [hstep]
      exact ⟨h1, h2⟩
    case pos =>
      subst hrole
      cases hlo : latestOpen s db.events with
      | none =>
        have hstep : step parseDate s db (.stop Role.OWNER now) =
            { events := db.events,
              actives := db.actives.filter (fun a => !decide (a.userUpn = s)) } := by
          simp [step, stopCurrent, hlo]
        rw [hstep]
        exact ⟨h1, h2⟩
      | some o =>
        have hstep : step parseDate s db (.stop Role.OWNER now) =
            { events := db.events.map
                (fun e => if e.id = o.id then { e with endedAt := some now } else e),
              actives := db.actives.filter (fun a => !decide (a.userUpn = s)) } := by
          simp [step, stopCurrent, hlo]
        rw [hstep]
        constructor
        · show ((db.events.map
              (fun e => if e.id = o.id then { e with endedAt := some now } else e)).map
                Event.id).Nodup
          rw [map_id_of_preserves _ _ (fun e => by
            by_cases hid : e.id = o.id <;> simp [hid])]
          exact h1
        · show ((db.events.map
              (fun e => if e.id = o.id then { e with endedAt := some now } else e)).filter
                (fun e => decide (e.userUpn = s ∧ e.endedAt = none))).length ≤ 1
          refine le_trans (length_filter_map_le ?_) h2
          intro e _ hpf
          by_cases hid : e.id = o.id
          · rw [if_pos hid] at hpf
            simp at hpf
          · rw [if_neg hid] at hpf
            exact hpf
  | patch role body now =>
    by_cases hrole : role = Role.OWNER
    case neg =>
      have hstep : step parseDate s db (.patch role body now) = db := by
        simp [step, updateEvent, hrole]
      rw [hstep]
      exact ⟨h1, h2⟩
    case pos =>
      subst hrole
      by_cases hid : jsTrim (body.id.getD "") = ""
      · have hstep : step parseDate s db (.patch Role.OWNER body now) = db := by
          simp [step, updateEvent, hid]
        rw [hstep]
        exact ⟨h1, h2⟩
      cases hfind : findPatchTarget s (jsTrim (body.id.getD "")) db with
      | none =>
        have hstep : step parseDate s db (.patch Role.OWNER body now) = db := by
          simp [step, updateEvent, hid, hfind]
        rw [hstep]
        exact ⟨h1, h2⟩
      | some existing =>
        have hpred := List.find?_some hfind
        have hmem : existing ∈ db.events := List.mem_of_find?_eq_some hfind
        have hupn : existing.userUpn = s := (of_decide_eq_true hpred).2
        by_cases hval : patchNextTitle body existing = "" ∨
            patchNextCategory body existing = ""
        · have hstep : step parseDate s db (.patch Role.OWNER body now) = db := by
            simp [step, updateEvent, hid, hfind, hval]
          rw [hstep]
          exact ⟨h1, h2⟩
        by_cases hebs : endBeforeStart (patchNextEnd parseDate body existing)
            (patchNextStart parseDate body existing) = true
        · have hstep : step parseDate s db (.patch Role.OWNER body now) = db := by
            simp [step, updateEvent, hid, hfind, hval, hebs]
          rw [hstep]
          exact ⟨h1, h2⟩
        by_cases hro : existing.endedAt ≠ none ∧
            patchParsedEnd parseDate body = some none
        · have hstep : step parseDate s db (.patch Role.OWNER body now) = db := by
            simp [step, updateEvent, hid, hfind, hval, hebs, hro]
          rw [hstep]
          exact ⟨h1, h2⟩
        have hpid : (patchedEvent parseDate body existing).id = existing.id := rfl
        have hstepE : (step parseDate s db (.patch Role.OWNER body now)).events =
            db.events.map (fun e =>
              if e.id = existing.id then patchedEvent parseDate body existing
              else e) := by
          simp [step, updateEvent, hid, hfind, hval, hebs, hro]
        constructor
        · rw [hstepE]
          rw [map_id_of_preserves _ _ (fun e => by
            by_cases he : e.id = existing.id
            · rw [if_pos he, hpid, he]
            · rw [if_neg he])]
          exact h1
        · simp only [openEvents]
          rw [hstepE]
          refine le_trans (length_filter_map_le ?_) h2
          intro e he hpf
          by_cases he2 : e.id = existing.id
          · by_cases hopen : (patchedEvent parseDate body existing).endedAt = none
            · have hexopen : existing.endedAt = none := by
                have hne : patchNextEnd parseDate body existing = none := hopen
                cases hpp : patchParsedEnd parseDate body with
                | none =>
                  rw [patchNextEnd, hpp] at hne
                  exact hne
                | some v =>
                  rw [patchNextEnd, hpp] at hne
                  subst hne
                  by_contra hcon
                  exact hro ⟨hcon, hpp⟩
              have heq : e = existing :=
                List.inj_on_of_nodup_map h1 he hmem he2
              subst heq
              exact decide_eq_true ⟨hupn, hexopen⟩
            · rw [if_pos he2] at hpf
              exact absurd (of_decide_eq_true hpf).2 hopen
          · rw [if_neg he2] at hpf
            exact hpf

/-- Unique ids and the single-open bound hold along every call sequence. -/
theorem wf1_run (parseDate : String → Option Int) (s : String) (db : Db)
    (ops : List Op)
    (h1 : (db.events.map Event.id).Nodup)
    (h2 : (openEvents s db).length ≤ 1) :
    ((run parseDate s db ops).events.map Event.id).Nodup ∧
    (openEvents s (run parseDate s db ops)).length ≤ 1 := by
  induction ops generalizing db with
  | nil => exact ⟨h1, h2⟩
  | cons op rest ih =>
    obtain ⟨g1, g2⟩ := wf1_step parseDate s db op h1 h2
    exact ih (step parseDate s db op) g1 g2

/-- C1: for every sequence of StartOrUpdateCurrent, StopCurrent and
UpdateEvent calls on one subject, starting from a state whose event ids are
unique (the primary key) with at most one open event, at most one event row
with endedAt = null exists for the subject at every observed point: every
observed point is the state after some prefix, itself such a sequence. -/
theorem single_open_event_invariant (parseDate : String → Option Int)
    (s : String) (db : Db) (ops : List Op)
    (h1 : (db.events.map Event.id).Nodup)
    (h2 : (openEvents s db).length ≤ 1) :
    (openEvents s (run parseDate s db ops)).length ≤ 1 :=
  (wf1_run parseDate s db ops h1 h2).2

/-- Witness: a concrete sequence of two creates and a stop from the empty
state keeps at most one open event. -/
theorem single_open_event_invariant_witness :
    (openEvents "k" (run pdFix "k" emptyDb opsFix)).length ≤ 1 :=
  single_open_event_invariant pdFix "k" emptyDb opsFix (by decide) (by decide)

/-- C2: after every call sequence on a subject starting from a consistent
state, any active record of the subject carries exactly the title, category,
status, project, notes and referenceId of an open event of the subject, and
when no event is open no active record exists. -/
theorem mirror_consistency_invariant (parseDate : String → Option Int)
    (s : String) (db : Db) (ops : List Op) (h : Consistent s db) :
    (∀ a ∈ subjectActives s (run parseDate s db ops),
      ∃ e ∈ openEvents s (run parseDate s db ops), MirrorFields a e) ∧
    (openEvents s (run parseDate s db ops) = [] →
      subjectActives s (run parseDate s db ops) = []) := by
  have hc := consistent_run parseDate s db ops h
  refine ⟨hc.mirrors, ?_⟩
  intro hopen
  apply List.eq_nil_iff_forall_not_mem.mpr
  intro a ha
  obtain ⟨e, he, _⟩ := hc.mirrors a ha
  rw [hopen] at he
  exact absurd he (List.not_mem_nil e)

/-- Witness: the mirror relation holds after a concrete sequence of calls
from the empty (trivially consistent) state. -/
theorem mirror_consistency_invariant_witness :
    (∀ a ∈ subjectActives "k" (run pdFix "k" emptyDb opsFix),
      ∃ e ∈ openEvents "k" (run pdFix "k" emptyDb opsFix), MirrorFields a e) ∧
    (openEvents "k" (run pdFix "k" emptyDb opsFix) = [] →
      subjectActives "k" (run pdFix "k" emptyDb opsFix) = []) :=
  mirror_consistency_invariant pdFix "k" emptyDb opsFix
    ⟨by decide, by decide, by simp [emptyDb], by simp [subjectActives, emptyDb]⟩

/- ## Helper lemmas for the batch edit -/

/-- When ids are unique, find?-by-id returns the one matching element. -/
theorem find?_id_of_unique {l : List CEvent} {k : String} {ev : CEvent}
    (hmem : ev ∈ l) (hnd : (l.map CEvent.id).Nodup) (hk : ev.id = k) :
    l.find? (fun u => decide (u.id = k)) = some ev := by
  have hs : (l.find? (fun u => decide (u.id = k))).isSome :=
    List.find?_isSome.mpr ⟨ev, hmem, decide_eq_true hk⟩
  obtain ⟨x, hx⟩ := Option.isSome_iff_exists.mp hs
  have hxm : x ∈ l := List.mem_of_find?_eq_some hx
  have hxp := List.find?_some hx
  simp only [decide_eq_true_eq] at hxp
  have hxe : x = ev :=
    List.inj_on_of_nodup_map hnd hxm hmem (by rw [hxp, hk])
  rw [hx, hxe]

/-- Updating one key of a draft map leaves lookups of other keys alone. -/
theorem find?_map_updateKey (ds : List (String × EventDraft)) (k k' : String)
    (d : EventDraft) (hne : k ≠ k') :
    (ds.map (fun p => if p.1 = k then (k, d) else p)).find?
      (fun p => decide (p.1 = k')) = ds.find? (fun p => decide (p.1 = k')) := by
  induction ds with
  | nil => rfl
  | cons p rest ih =>
    rw [List.map_cons]
    by_cases hp : p.1 = k
    · rw [if_pos hp]
      rw [List.find?_cons_of_neg _ (by simpa using hne)]
      rw [List.find?_cons_of_neg _ (by simp only [decide_eq_true_eq]; rw [hp]; exact hne)]
      exact ih
    · rw [if_neg hp]
      by_cases hp' : p.1 = k'
      · rw [List.find?_cons_of_pos _ (by simpa using hp'),
          List.find?_cons_of_pos _ (by simpa using hp')]
      · rw [List.find?_cons_of_neg _ (by simpa using hp'),
          List.find?_cons_of_neg _ (by simpa using hp')]
        exact ih

/-- Updating a present key makes its lookup return the new draft. -/
theorem find?_map_updateKey_self (ds : List (String × EventDraft)) (k : String)
    (d : EventDraft) (hany : ds.any (fun p => decide (p.1 = k)) = true) :
    (ds.map (fun p => if p.1 = k then (k, d) else p)).find?
      (fun p => decide (p.1 = k)) = some (k, d) := by
  induction ds with
  | nil => simp at hany
  | cons p rest ih =>
    rw [List.map_cons]
    by_cases hp : p.1 = k
    · rw [if_pos hp]
      exact List.find?_cons_of_pos _ (by simp)
    · rw [if_neg hp]
      rw [List.find?_cons_of_neg _ (by simpa using hp)]
      apply ih
      rw [List.any_cons] at hany
      simpa [hp] using hany

/-- setDraft binds the written key to the written draft. -/
theorem setDraft_find_self (ds : List (String × EventDraft)) (k : String)
    (d : EventDraft) :
    (setDraft ds k d).find? (fun p => decide (p.1 = k)) = some (k, d) := by
  unfold setDraft
  by_cases hany : ds.any (fun p => decide (p.1 = k)) = true
  · rw [if_pos hany]
    exact find?_map_updateKey_self ds k d hany
  · rw [if_neg hany]
    have hnone : ds.find? (fun p => decide (p.1 = k)) = none := by
      rw [List.find?_eq_none]
      intro p hp hpk
      exact hany (List.any_eq_true.mpr ⟨p, hp, hpk⟩)
    rw [List.find?_append, hnone]
    simp

/-- setDraft leaves lookups of other keys alone. -/
theorem setDraft_find_other (ds : List (String × EventDraft)) (k k' : String)
    (d : EventDraft) (hne : k ≠ k') :
    (setDraft ds k d).find? (fun p => decide (p.1 = k')) =
      ds.find? (fun p => decide (p.1 = k')) := by
  unfold setDraft
  by_cases hany : ds.any (fun p => decide (p.1 = k)) = true
  · rw [if_pos hany]
    exact find?_map_updateKey ds k k' d hne
  · rw [if_neg hany]
    rw [List.find?_append]
    have : ([(k, d)].find? (fun p => decide (p.1 = k'))) = none := by
      simp [hne]
    rw [this]
    simp

/-- Folding setDraft over rows with other ids leaves a lookup alone. -/
theorem foldl_setDraft_untouched (env : JsEnv) (l : List CEvent)
    (ds : List (String × EventDraft)) (k : String)
    (h : ∀ e ∈ l, e.id ≠ k) :
    (l.foldl (fun ds e => setDraft ds e.id (toDraft env e)) ds).find?
      (fun p => decide (p.1 = k)) =
    ds.find? (fun p => decide (p.1 = k)) := by
  induction l generalizing ds with
  | nil => rfl
  | cons e rest ih =>
    rw [List.foldl_cons]
    rw [ih _ (fun x hx => h x (List.mem_cons_of_mem _ hx))]
    exact setDraft_find_other ds e.id k _ (h e (List.mem_cons_self e rest))

/-- Folding setDraft over rows with unique ids binds each row to its own
draft. -/
theorem foldl_setDraft_find (env : JsEnv) (l : List CEvent)
    (ds : List (String × EventDraft)) (ev : CEvent) (hmem : ev ∈ l)
    (hnd : (l.map CEvent.id).Nodup) :
    (l.foldl (fun ds e => setDraft ds e.id (toDraft env e)) ds).find?
      (fun p => decide (p.1 = ev.id)) = some (ev.id, toDraft env ev) := by
  induction l generalizing ds with
  | nil => exact absurd hmem (List.not_mem_nil ev)
  | cons e rest ih =>
    rw [List.map_cons, List.nodup_cons] at hnd
    rcases hnd with ⟨hnotin, hndr⟩
    rw [List.foldl_cons]
    rcases List.mem_cons.mp hmem with heq | hrest
    · subst heq
      rw [foldl_setDraft_untouched env rest _ ev.id
        (fun x hx hxk => hnotin (hxk ▸ List.mem_map_of_mem CEvent.id hx))]
      exact setDraft_find_self ds ev.id (toDraft env ev)
    · exact ih _ hrest hndr

/-- The ids of the successfully updated rows are drawn, in order, from the
selected rows. -/
theorem updated_ids_sublist (server : BatchPayload → Except String CEvent)
    (st : GridState) (l : List CEvent)
    (h : ∀ e ∈ l, ∀ ev, server (batchPayload st e) = .ok ev → ev.id = e.id) :
    (((l.map (fun e => (e.id, server (batchPayload st e)))).filterMap (fun r =>
      match r.2 with
      | .ok ev => some ev
      | .error _ => none)).map CEvent.id).Sublist (l.map CEvent.id) := by
  induction l with
  | nil => simp
  | cons e rest ih =>
    have ihr := ih (fun x hx => h x (List.mem_cons_of_mem _ hx))
    rw [List.map_cons, List.map_cons, List.filterMap_cons]
    cases hsrv : server (batchPayload st e) with
    | error msg =>
      exact List.Sublist.cons e.id ihr
    | ok ev =>
      have hide : ev.id = e.id := h e (List.mem_cons_self e rest) ev hsrv
      rw [List.map_cons, hide]
      exact List.Sublist.cons₂ e.id ihr

/-- C6: applyBatchEdit over N selected rows where some updates fail merges
each successful update into the canonical list and its draft and removes it
from the selection, keeps exactly the failed rows selected, and surfaces
the error message Updated S row(s). F row(s) failed. with S and F the
success and failure counts. -/
theorem batch_edit_mixed_outcome (env : JsEnv)
    (server : BatchPayload → Except String CEvent) (st : GridState)
    (hsv : st.batchSaving = false)
    (hsel : st.selectedRowIds.isEmpty = false)
    (hse : (batchSelected st).isEmpty = false)
    (hguard : ¬(st.batchEditField = .category ∧ jsTrim st.batchEditText = ""))
    (hfail : (batchFailed server st).isEmpty = false)
    (hnodup : (st.events.map CEvent.id).Nodup)
    (hsrvid : ∀ e ∈ batchSelected st, ∀ ev,
      server (batchPayload st e) = .ok ev → ev.id = e.id) :
    (applyBatchEdit env server st).error =
      some ("Updated " ++ toString (batchUpdated server st).length ++
        " row(s). " ++ toString (batchFailed server st).length ++
        " row(s) failed.") ∧
    (applyBatchEdit env server st).selectedRowIds =
      (batchFailed server st).map Prod.fst ∧
    (∀ e ∈ batchSelected st, ∀ ev, server (batchPayload st e) = .ok ev →
      ev ∈ (applyBatchEdit env server st).events ∧
      (applyBatchEdit env server st).drafts.find?
        (fun p => decide (p.1 = ev.id)) = some (ev.id, toDraft env ev) ∧
      e.id ∉ (applyBatchEdit env server st).selectedRowIds) := by
  have hmemupd : ∀ e ∈ batchSelected st, ∀ ev,
      server (batchPayload st e) = .ok ev → ev ∈ batchUpdated server st := by
    intro e he ev hok
    unfold batchUpdated batchResults
    rw [List.mem_filterMap]
    refine ⟨(e.id, server (batchPayload st e)), List.mem_map_of_mem _ he, ?_⟩
    rw [hok]
  have hseln : ((batchSelected st).map CEvent.id).Nodup :=
    hnodup.sublist ((List.filter_sublist _).map CEvent.id)
  have hupdn : ((batchUpdated server st).map CEvent.id).Nodup :=
    hseln.sublist (updated_ids_sublist server st (batchSelected st) hsrvid)
  have herr : (applyBatchEdit env server st).error =
      some ("Updated " ++ toString (batchUpdated server st).length ++
        " row(s). " ++ toString (batchFailed server st).length ++
        " row(s) failed.") := by
    simp [applyBatchEdit, hsv, hsel, hse, hguard, hfail]
  have hselres : (applyBatchEdit env server st).selectedRowIds =
      (batchFailed server st).map Prod.fst := by
    simp [applyBatchEdit, hsv, hsel, hse, hguard, hfail]
  refine ⟨herr, hselres, ?_⟩
  intro e he ev hok
  have hevmem : ev ∈ batchUpdated server st := hmemupd e he ev hok
  have hupdne : (batchUpdated server st).isEmpty = false := by
    cases hbu : batchUpdated server st with
    | nil => rw [hbu] at hevmem; exact absurd hevmem (List.not_mem_nil ev)
    | cons x xs => rfl
  have hevents : (applyBatchEdit env server st).events =
      st.events.map (fun x => ((batchUpdated server st).reverse.find?
        (fun u => decide (u.id = x.id))).getD x) := by
    simp [applyBatchEdit, hsv, hsel, hse, hguard, hfail, hupdne]
  have hdrafts : (applyBatchEdit env server st).drafts =
      (batchUpdated server st).foldl
        (fun ds ev => setDraft ds ev.id (toDraft env ev)) st.drafts := by
    simp [applyBatchEdit, hsv, hsel, hse, hguard, hfail, hupdne]
  have hide : ev.id = e.id := hsrvid e he ev hok
  refine ⟨?_, ?_, ?_⟩
  · rw [hevents]
    have hee : e ∈ st.events := (List.mem_filter.mp he).1
    refine List.mem_map.mpr ⟨e, hee, ?_⟩
    rw [find?_id_of_unique (List.mem_reverse.mpr hevmem) ?_ hide]
    · rfl
    · rw [List.map_reverse]
      exact List.nodup_reverse.mpr hupdn
  · rw [hdrafts]
    exact foldl_setDraft_find env _ st.drafts ev hevmem hupdn
  · rw [hselres]
    intro hin
    obtain ⟨r, hr, hrid⟩ := List.mem_map.mp hin
    have hrres : r ∈ batchResults server st := (List.mem_filter.mp hr).1
    have hrpred := (List.mem_filter.mp hr).2
    obtain ⟨e2, he2, hre⟩ := List.mem_map.mp hrres
    have he2id : e2.id = e.id := by rw [← hrid, ← hre]
    have he2e : e2 = e :=
      List.inj_on_of_nodup_map hseln he2 he he2id
    subst he2e
    rw [← hre, hok] at hrpred
    simp at hrpred

/-- Witness: three selected rows with one rejected update keep that row
selected and report Updated 2 row(s). 1 row(s) failed. -/
theorem batch_edit_mixed_outcome_witness :
    (applyBatchEdit envFix srvFix gridFix).error =
      some "Updated 2 row(s). 1 row(s) failed." ∧
    (applyBatchEdit envFix srvFix gridFix).selectedRowIds = ["e2"] := by
  have h := batch_edit_mixed_outcome envFix srvFix gridFix rfl rfl rfl
    (by decide) rfl (by decide) ?hsrv
  case hsrv =>
    intro e he ev hok
    have he2 : e = cev1 ∨ e = cev2 ∨ e = cev3 := by
      have : batchSelected gridFix = [cev1, cev2, cev3] := by decide
      rw [this] at he
      simpa using he
    rcases he2 with rfl | rfl | rfl
    · have : srvFix (batchPayload gridFix cev1) =
          .ok { cev1 with project := some "X" } := rfl
      rw [this] at hok
      cases hok
      decide
    · have : srvFix (batchPayload gridFix cev2) =
          .error "Task and category are required" := rfl
      rw [this] at hok
      cases hok
    · have : srvFix (batchPayload gridFix cev3) =
          .ok { cev3 with project := some "X" } := rfl
      rw [this] at hok
      cases hok
      decide
  constructor
  · rw [h.1]
    have h2 : (batchUpdated srvFix gridFix).length = 2 := by decide
    have h1 : (batchFailed srvFix gridFix).length = 1 := by decide
    rw [h2, h1]
    decide
  · rw [h.2.1]
    decide

/- ## Helper lemmas for the analytics aggregation -/

/-- Bumping a key adds to that key in the association list. -/
theorem lookupD_bump_self (m : List (String × Int)) (k : String) (v : Int) :
    lookupD (bump m k v) k = lookupD m k + v := by
  induction m with
  | nil => simp [bump, lookupD]
  | cons p rest ih =>
    rcases p with ⟨k', v'⟩
    by_cases hk : k' = k
    · subst hk
      simp [bump, lookupD]
    · simp only [bump, if_neg hk]
      unfold lookupD
      rw [List.find?_cons_of_neg _ (by simpa using hk),
        List.find?_cons_of_neg _ (by simpa using hk)]
      exact ih

/-- Bumping one key leaves every other key alone. -/
theorem lookupD_bump_other (m : List (String × Int)) (k c : String) (v : Int)
    (hne : k ≠ c) :
    lookupD (bump m k v) c = lookupD m c := by
  induction m with
  | nil => simp [bump, lookupD, hne]
  | cons p rest ih =>
    rcases p with ⟨k', v'⟩
    by_cases hk : k' = k
    · subst hk
      have hbe : bump ((k', v') :: rest) k' v = (k', v' + v) :: rest := by
        simp [bump]
      rw [hbe]
      unfold lookupD
      rw [List.find?_cons_of_neg _ (by simpa using hne),
        List.find?_cons_of_neg _ (by simpa using hne)]
    · simp only [bump, if_neg hk]
      by_cases hc : k' = c
      · subst hc
        unfold lookupD
        rw [List.find?_cons_of_pos _ (by simp),
          List.find?_cons_of_pos _ (by simp)]
      · unfold lookupD
        rw [List.find?_cons_of_neg _ (by simpa using hc),
          List.find?_cons_of_neg _ (by simpa using hc)]
        exact ih

/-- Folding bump over events accumulates, per key, the minutes of the
events in that category. -/
theorem lookupD_bump_foldl (now : Int) (l : List Event)
    (m : List (String × Int)) (c : String) :
    lookupD (l.foldl
      (fun m e => bump m (analyticsCategory e.type) (eventMinutes now e)) m) c =
    lookupD m c +
      ((l.filter (fun e => decide (analyticsCategory e.type = c))).map
        (eventMinutes now)).sum := by
  induction l generalizing m with
  | nil => simp
  | cons e rest ih =>
    rw [List.foldl_cons, ih, List.filter_cons]
    by_cases hc : analyticsCategory e.type = c
    · rw [if_pos (by simpa using hc)]
      rw [hc, lookupD_bump_self]
      simp only [List.map_cons, List.sum_cons]
      omega
    · rw [if_neg (by simpa using hc)]
      rw [lookupD_bump_other _ _ _ _ hc]

/-- The category order is total. -/
theorem catLe_total (w : List (String × Int)) :
    ∀ a b, catLe w a b ∨ catLe w b a := by
  intro a b
  rcases lt_trichotomy (lookupD w a) (lookupD w b) with h | h | h
  · exact Or.inr (Or.inl h)
  · rcases le_total (toLowerStr a) (toLowerStr b) with h2 | h2
    · exact Or.inl (Or.inr ⟨h, h2⟩)
    · exact Or.inr (Or.inr ⟨h.symm, h2⟩)
  · exact Or.inl (Or.inl h)

/-- The category order is transitive. -/
theorem catLe_trans (w : List (String × Int)) :
    ∀ a b c, catLe w a b → catLe w b c → catLe w a c := by
  intro a b c hab hbc
  rcases hab with h1 | ⟨h1, h1'⟩
  · rcases hbc with h2 | ⟨h2, h2'⟩
    · exact Or.inl (lt_trans h2 h1)
    · exact Or.inl (h2 ▸ h1)
  · rcases hbc with h2 | ⟨h2, h2'⟩
    · exact Or.inl (lt_of_lt_of_le h2 (le_of_eq h1.symm))
    · exact Or.inr ⟨h1.trans h2, le_trans h1' h2'⟩

/-- C5: the analytics aggregation accumulates per-event minutes under the
trimmed type defaulting to General, and its category list is the union of
the today-map and week-map keys ordered by descending week minutes with the
ascending case-insensitive name tie-break. -/
theorem analytics_aggregation (now todayStart weekStart : Int)
    (events : List Event) :
    (∀ c : String, lookupD (weekMap now weekStart events) c =
      (((analyticsWindow weekStart events).filter
        (fun e => decide (analyticsCategory e.type = c))).map
          (eventMinutes now)).sum) ∧
    (∀ c : String, lookupD (todayMap now todayStart weekStart events) c =
      ((((analyticsWindow weekStart events).filter
        (fun e => decide (todayStart ≤ e.startedAt))).filter
        (fun e => decide (analyticsCategory e.type = c))).map
          (eventMinutes now)).sum) ∧
    (∀ c : String,
      c ∈ (getAnalytics now todayStart weekStart events).categories ↔
        (c ∈ (weekMap now weekStart events).map Prod.fst ∨
         c ∈ (todayMap now todayStart weekStart events).map Prod.fst)) ∧
    List.Pairwise (catLe (weekMap now weekStart events))
      (getAnalytics now todayStart weekStart events).categories := by
  refine ⟨?_, ?_, ?_, ?_⟩
  · intro c
    unfold weekMap
    rw [lookupD_bump_foldl]
    simp [lookupD]
  · intro c
    unfold todayMap
    rw [lookupD_bump_foldl]
    simp [lookupD]
  · intro c
    unfold getAnalytics
    simp only []
    rw [(List.perm_insertionSort (catLe (weekMap now weekStart events)) _).mem_iff]
    rw [List.mem_dedup, List.mem_append]
  · haveI : IsTotal String (catLe (weekMap now weekStart events)) :=
      ⟨catLe_total _⟩
    haveI : IsTrans String (catLe (weekMap now weekStart events)) :=
      ⟨catLe_trans _⟩
    exact List.sorted_insertionSort _ _

end WKD
